import Mathlib

/-!
Verification development for the gem5-SALAM timing/telemetry core.

Each section embeds one source component as executable Lean definitions and
proves (or refutes) the specification claims about it:

* `salam::SimpleMemory` from `src/salam-core/include/salam/memory_interface.hh`
* `salam::Gem5MemoryPort` from `src/salam-core/adapters/gem5/gem5_memory_port.hh`
* `HWStatistics` / `StallBreakdown` / `PowerAreaCoefficients` from
  `src/scripts/patches/temp_hw_statistics_enhanced.{hh,cc}` and the base
  variant `src/scripts/patches/temp_hw_statistics.{hh,cc}`

C++ `uint64_t`/`size_t` values are embedded as `ℕ` together with an explicit
wrap `u64` applied exactly where the C++ arithmetic wraps; `int`/`int64_t`
values as `ℤ`; `double` values as `ℚ` (the claims below are algebraic
identities that the C++ code establishes by direct assignment, so exact
rational arithmetic is the faithful model of what is computed).
-/

/-- Wrap of unsigned 64-bit arithmetic: the value of a C++ `uint64_t`
expression whose mathematical value is `n`. -/
def u64 (n : ℕ) : ℕ := n % 2 ^ 64

/-! ### Memory interface (`memory_interface.hh`) -/

/-- `salam::MemoryRequestType` (memory_interface.hh:27). -/
inductive MemoryRequestType where
  | Read
  | Write
  | ReadExclusive
  | WriteInvalidate
  | Invalidate
  | Prefetch
  | Flush
  deriving DecidableEq, Repr

/-- `salam::MemoryRequest` (memory_interface.hh:43).  The `context` pointer is
omitted: no modelled operation reads or writes it.  `data` is the byte vector
`std::vector<uint8_t>` (byte values as `ℕ`). -/
structure MemoryRequest where
  id : ℕ
  type : MemoryRequestType
  addr : ℕ
  size : ℕ
  data : List ℕ
  requestTick : ℕ
  responseTick : ℕ
  completed : Bool
  success : Bool
  deriving DecidableEq, Repr

/-- The four-argument `MemoryRequest` constructor (memory_interface.hh:80):
writes get a zero-filled payload of length `size`, everything else starts
with an empty buffer. -/
def MemoryRequest.make (reqId : ℕ) (reqType : MemoryRequestType)
    (address : ℕ) (reqSize : ℕ) : MemoryRequest :=
  { id := reqId
    type := reqType
    addr := address
    size := reqSize
    data := if reqType = MemoryRequestType.Write then List.replicate reqSize 0 else []
    requestTick := 0
    responseTick := 0
    completed := false
    success := false }

/-- `MemoryRequest::isRead` (memory_interface.hh:91). -/
def MemoryRequest.isRead (req : MemoryRequest) : Bool :=
  req.type = MemoryRequestType.Read || req.type = MemoryRequestType.ReadExclusive

/-- `MemoryRequest::isWrite` (memory_interface.hh:97). -/
def MemoryRequest.isWrite (req : MemoryRequest) : Bool :=
  req.type = MemoryRequestType.Write || req.type = MemoryRequestType.WriteInvalidate

/-- `salam::SimpleMemory` (memory_interface.hh:205): a flat byte array with a
base address. -/
structure SimpleMemory where
  base : ℕ
  storage : List ℕ
  deriving DecidableEq, Repr

/-- The range guard of `SimpleMemory::recvFunctional` (memory_interface.hh:218):
`req.addr < base || req.addr + req.size > base + storage.size()`.
Both additions are performed in `uint64_t`, hence the `u64` wraps. -/
def SimpleMemory.outOfRange (m : SimpleMemory) (req : MemoryRequest) : Prop :=
  req.addr < m.base ∨ u64 (req.addr + req.size) > u64 (m.base + m.storage.length)

instance (m : SimpleMemory) (req : MemoryRequest) : Decidable (m.outOfRange req) := by
  unfold SimpleMemory.outOfRange
  infer_instance

/-- `SimpleMemory::recvFunctional` (memory_interface.hh:217).  Out-of-range
requests are rejected with `success = false` and no other effect.  In-range
reads copy `storage[offset .. offset+size)` into the request's data buffer
(after resizing it to `size`); in-range writes splice `data[0 .. size)` into
storage at `offset`.  Returns the updated memory and request. -/
def SimpleMemory.recvFunctional (m : SimpleMemory) (req : MemoryRequest) :
    SimpleMemory × MemoryRequest :=
  if m.outOfRange req then
    (m, { req with success := false })
  else
    let offset := req.addr - m.base
    if req.isRead then
      (m, { req with data := (m.storage.drop offset).take req.size, success := true })
    else if req.isWrite then
      ({ m with storage :=
          m.storage.take offset ++ req.data.take req.size ++ m.storage.drop (offset + req.size) },
       { req with success := true })
    else
      (m, { req with success := true })

/-- Evaluation of `recvFunctional` on an in-range read request. -/
theorem SimpleMemory.recvFunctional_read (m : SimpleMemory) (req : MemoryRequest)
    (hno : ¬ m.outOfRange req) (hrd : req.isRead = true) :
    m.recvFunctional req =
      (m, { req with data := (m.storage.drop (req.addr - m.base)).take req.size,
                     success := true }) := by
  unfold SimpleMemory.recvFunctional
  rw [if_neg hno]
  simp [hrd]

/-- Evaluation of `recvFunctional` on an in-range write request. -/
theorem SimpleMemory.recvFunctional_write (m : SimpleMemory) (req : MemoryRequest)
    (hno : ¬ m.outOfRange req) (hrd : req.isRead = false) (hwr : req.isWrite = true) :
    m.recvFunctional req =
      ({ m with storage :=
          m.storage.take (req.addr - m.base) ++ req.data.take req.size ++
          m.storage.drop ((req.addr - m.base) + req.size) },
       { req with success := true }) := by
  unfold SimpleMemory.recvFunctional
  rw [if_neg hno]
  simp [hrd, hwr]

/-- `SimpleMemory::recvTimingRequest` (memory_interface.hh:210): forwards to
`recvFunctional`, then unconditionally sets `completed = true` and
`success = true` and returns `true`. -/
def SimpleMemory.recvTimingRequest (m : SimpleMemory) (req : MemoryRequest) :
    SimpleMemory × MemoryRequest × Bool :=
  let fr := m.recvFunctional req
  (fr.1, { fr.2 with completed := true, success := true }, true)

/-- C1: at the out-of-range request `addr = 100`, `size = 4` against a
4-byte memory based at 0, `recvTimingRequest` leaves the storage and the data
buffer untouched, but reports `success = true` (and `completed = true`),
because it overwrites the `success = false` that `recvFunctional` just set.
This refutes the claimed `success = false` for the timing path. -/
theorem recvTimingRequest_reports_success_out_of_range :
    (SimpleMemory.mk 0 (List.replicate 4 0)).outOfRange (MemoryRequest.make 1 MemoryRequestType.Read 100 4) ∧
    ((SimpleMemory.mk 0 (List.replicate 4 0)).recvTimingRequest
        (MemoryRequest.make 1 MemoryRequestType.Read 100 4)).2.1.success = true ∧
    ((SimpleMemory.mk 0 (List.replicate 4 0)).recvTimingRequest
        (MemoryRequest.make 1 MemoryRequestType.Read 100 4)).2.1.completed = true ∧
    ((SimpleMemory.mk 0 (List.replicate 4 0)).recvTimingRequest
        (MemoryRequest.make 1 MemoryRequestType.Read 100 4)).1.storage = List.replicate 4 0 ∧
    ((SimpleMemory.mk 0 (List.replicate 4 0)).recvTimingRequest
        (MemoryRequest.make 1 MemoryRequestType.Read 100 4)).2.1.data = [] := by
  refine ⟨?_, by decide, by decide, by decide, by decide⟩
  decide

/-- C10: the range guard computes `addr + size` with wrapping 64-bit
arithmetic.  At `addr = 2^64 - 1`, `size = 2`, `base = 0` against a 16-byte
memory, the true byte range `[2^64-1, 2^64+1)` lies outside `[0, 16)`, yet the
guard accepts the request (the sum wraps to 1), `recvFunctional` reports
success, and the copy offset `addr - base = 2^64 - 1` lies past the end of the
16-byte storage array. -/
theorem recvFunctional_guard_wraps :
    ¬ (SimpleMemory.mk 0 (List.replicate 16 0)).outOfRange
        (MemoryRequest.make 1 MemoryRequestType.Read (2 ^ 64 - 1) 2) ∧
    2 ^ 64 ≤ (2 ^ 64 - 1) + 2 ∧
    ((SimpleMemory.mk 0 (List.replicate 16 0)).recvFunctional
        (MemoryRequest.make 1 MemoryRequestType.Read (2 ^ 64 - 1) 2)).2.success = true ∧
    (SimpleMemory.mk 0 (List.replicate 16 0)).storage.length ≤ (2 ^ 64 - 1) - 0 := by
  refine ⟨by decide, by norm_num, ?_, by norm_num⟩
  decide

/-- C6 counterexample: for a 16-byte `SimpleMemory` based at `2^64 - 16`, the
request `addr = base`, `len = 4` is in range in the claim's sense
(`base ≤ addr` and `addr + len ≤ base + S`), yet `base + S` wraps to `0` inside
the guard, so the write is rejected (`success = false`), the following read is
rejected as well, and the read buffer stays empty instead of returning the
written bytes. -/
theorem simpleMemory_roundtrip_fails_at_top_of_address_space :
    let m := SimpleMemory.mk (2 ^ 64 - 16) (List.replicate 16 0)
    let wreq := { MemoryRequest.make 1 MemoryRequestType.Write (2 ^ 64 - 16) 4 with
                    data := [1, 2, 3, 4] }
    let rreq := MemoryRequest.make 2 MemoryRequestType.Read (2 ^ 64 - 16) 4
    m.base ≤ wreq.addr ∧
    wreq.addr + wreq.size ≤ m.base + m.storage.length ∧
    (m.recvFunctional wreq).2.success = false ∧
    ((m.recvFunctional wreq).1.recvFunctional rreq).2.data ≠ [1, 2, 3, 4] := by
  refine ⟨by decide, by decide, by decide, by decide⟩

/-- Reading back the middle segment of a three-part concatenation. -/
theorem drop_take_append_middle {α : Type} (A B C : List α) (o sz : ℕ)
    (hA : A.length = o) (hB : B.length = sz) :
    ((A ++ B ++ C).drop o).take sz = B := by
  subst hA
  subst hB
  rw [List.append_assoc, List.drop_left, List.take_left]

/-- C6 amended: the write/read round trip holds for every in-range request
pair, provided the memory does not extend to the very top of the 64-bit
address space (`base + S < 2^64`), which keeps the guard's wrapped sums exact. -/
theorem simpleMemory_roundtrip
    (m : SimpleMemory) (wreq rreq : MemoryRequest)
    (hwf : m.base + m.storage.length < 2 ^ 64)
    (hlo : m.base ≤ wreq.addr)
    (hhi : wreq.addr + wreq.size ≤ m.base + m.storage.length)
    (hw : wreq.type = MemoryRequestType.Write)
    (hlen : wreq.data.length = wreq.size)
    (hr : rreq.type = MemoryRequestType.Read)
    (ha : rreq.addr = wreq.addr) (hs : rreq.size = wreq.size) :
    ((m.recvFunctional wreq).1.recvFunctional rreq).2.data = wreq.data ∧
    ((m.recvFunctional wreq).1.recvFunctional rreq).2.success = true ∧
    (m.recvFunctional wreq).2.success = true := by
  have hosz : (wreq.addr - m.base) + wreq.size ≤ m.storage.length := by omega
  have hnor₁ : ¬ m.outOfRange wreq := by
    unfold SimpleMemory.outOfRange u64
    rw [Nat.mod_eq_of_lt (by omega), Nat.mod_eq_of_lt hwf]
    omega
  have hread : wreq.isRead = false := by
    simp [MemoryRequest.isRead, hw]
  have hwrit : wreq.isWrite = true := by
    simp [MemoryRequest.isWrite, hw]
  have hwrite := SimpleMemory.recvFunctional_write m wreq hnor₁ hread hwrit
  have hAlen : (m.storage.take (wreq.addr - m.base)).length = wreq.addr - m.base := by
    simp [List.length_take]
    omega
  have hBfull : wreq.data.take wreq.size = wreq.data := by
    rw [← hlen, List.take_length]
  have hst1len :
      (m.storage.take (wreq.addr - m.base) ++ wreq.data.take wreq.size ++
        m.storage.drop ((wreq.addr - m.base) + wreq.size)).length = m.storage.length := by
    simp [List.length_append, List.length_take, List.length_drop, hlen]
    omega
  have hp1b : (m.recvFunctional wreq).1.base = m.base := by
    rw [hwrite]
  have hp1s : (m.recvFunctional wreq).1.storage =
      m.storage.take (wreq.addr - m.base) ++ wreq.data.take wreq.size ++
      m.storage.drop ((wreq.addr - m.base) + wreq.size) := by
    rw [hwrite]
  have hp1slen : (m.recvFunctional wreq).1.storage.length = m.storage.length := by
    rw [hp1s]
    exact hst1len
  have hnor₂ : ¬ (m.recvFunctional wreq).1.outOfRange rreq := by
    unfold SimpleMemory.outOfRange u64
    rw [hp1b, hp1slen, Nat.mod_eq_of_lt (by omega), Nat.mod_eq_of_lt hwf]
    omega
  have hread₂ : rreq.isRead = true := by
    simp [MemoryRequest.isRead, hr]
  have hBlen : (wreq.data.take wreq.size).length = wreq.size := by
    simp [List.length_take, hlen]
  have hres := SimpleMemory.recvFunctional_read (m.recvFunctional wreq).1 rreq hnor₂ hread₂
  refine ⟨?_, ?_, ?_⟩
  · simp only [hres]
    rw [hp1b, hp1s, ha, hs, drop_take_append_middle _ _ _ _ _ hAlen hBlen, hBfull]
  · simp only [hres]
  · rw [hwrite]

/-! ### gem5 memory port adapter (`gem5_memory_port.hh`)

`Gem5MemoryPort` wraps gem5's `RequestPort`.  Of its fields, only the
back-pressure state matters to request submission and retry ordering:
`stalled` and `retryQueue` (a `std::queue<MemoryRequest*>`, pushed at the
back, popped at the front).  The downstream `port.sendTimingReq(pkt)` call is
abstracted as a per-request acceptance predicate `accept`; `createPacket`
never returns null for a well-formed request, and the `pendingRequests`
map/callback bookkeeping does not influence stalling or queueing. -/

/-- The stall/retry state of `Gem5MemoryPort` (gem5_memory_port.hh:203,207). -/
structure Gem5MemoryPort where
  stalled : Bool
  retryQueue : List MemoryRequest
  deriving DecidableEq, Repr

/-- `Gem5MemoryPort::sendTimingRequest` (gem5_memory_port.hh:71): refuse
immediately while stalled; otherwise submit downstream, and on downstream
refusal become stalled and push the request on the back of the retry queue.
Returns the `bool` result and the updated port state. -/
def Gem5MemoryPort.sendTimingRequest (accept : MemoryRequest → Bool)
    (p : Gem5MemoryPort) (req : MemoryRequest) : Bool × Gem5MemoryPort :=
  if p.stalled then
    (false, p)
  else if accept req then
    (true, p)
  else
    (false, { stalled := true, retryQueue := p.retryQueue ++ [req] })

/-- The `while (!retryQueue.empty())` loop of `Gem5MemoryPort::handleRetry`
(gem5_memory_port.hh:190): pop the front request, resubmit it via
`sendTimingRequest`, and stop as soon as a resubmission fails.  The fuel
argument (instantiated with the queue length) bounds the loop: every
iteration that continues has popped one request without re-enqueueing any.
Also accumulates the requests handed to `sendTimingRequest`, in call order. -/
def Gem5MemoryPort.handleRetryGo (accept : MemoryRequest → Bool) :
    ℕ → Gem5MemoryPort → List MemoryRequest → Gem5MemoryPort × List MemoryRequest
  | 0, p, sent => (p, sent)
  | fuel + 1, p, sent =>
    match p.retryQueue with
    | [] => (p, sent)
    | req :: rest =>
      let res := Gem5MemoryPort.sendTimingRequest accept { p with retryQueue := rest } req
      if res.1 then
        Gem5MemoryPort.handleRetryGo accept fuel res.2 (sent ++ [req])
      else
        (res.2, sent ++ [req])

/-- `Gem5MemoryPort::handleRetry` (gem5_memory_port.hh:188): clear the stall,
then drain the retry queue in FIFO order until a request is refused again. -/
def Gem5MemoryPort.handleRetry (accept : MemoryRequest → Bool) (p : Gem5MemoryPort) :
    Gem5MemoryPort × List MemoryRequest :=
  Gem5MemoryPort.handleRetryGo accept p.retryQueue.length { p with stalled := false } []

/-- Loop characterization: starting unstalled on queue `q`, the loop hands the
accepted prefix of `q` plus the first refused request (if any) downstream in
FIFO order, and on a refusal leaves the untried suffix followed by the refused
request as the new queue, with the port stalled again. -/
theorem Gem5MemoryPort.handleRetryGo_spec (accept : MemoryRequest → Bool)
    (q sent : List MemoryRequest) :
    Gem5MemoryPort.handleRetryGo accept q.length ⟨false, q⟩ sent =
      (⟨!(q.dropWhile accept).isEmpty,
        (q.dropWhile accept).drop 1 ++ (q.dropWhile accept).take 1⟩,
       sent ++ q.takeWhile accept ++ (q.dropWhile accept).take 1) := by
  induction q generalizing sent with
  | nil =>
    simp [Gem5MemoryPort.handleRetryGo]
  | cons r rest ih =>
    by_cases hr : accept r
    · simp only [List.length_cons, Gem5MemoryPort.handleRetryGo,
        Gem5MemoryPort.sendTimingRequest, List.takeWhile_cons, List.dropWhile_cons, hr,
        Bool.false_eq_true, if_false, if_true, ite_true, ite_false]
      rw [ih]
      simp
    · simp only [List.length_cons, Gem5MemoryPort.handleRetryGo,
        Gem5MemoryPort.sendTimingRequest, List.takeWhile_cons, List.dropWhile_cons, hr,
        Bool.false_eq_true, if_false, if_true, ite_true, ite_false]
      simp [hr]

/-- C2 amended: a retry notification resubmits the queued requests downstream
in FIFO order, stopping at (and including) the first request refused again;
no request is dropped — the accepted prefix has been handed downstream and the
rest remains queued — but the refused request is re-enqueued at the *back* of
the retry queue, behind the requests that had been queued after it, so the
remaining queue is rotated rather than kept in its original relative order. -/
theorem handleRetry_fifo_until_refusal (accept : MemoryRequest → Bool)
    (p : Gem5MemoryPort) :
    (p.handleRetry accept).2 =
      p.retryQueue.takeWhile accept ++ (p.retryQueue.dropWhile accept).take 1 ∧
    (p.handleRetry accept).1.retryQueue =
      (p.retryQueue.dropWhile accept).drop 1 ++ (p.retryQueue.dropWhile accept).take 1 ∧
    (p.handleRetry accept).1.stalled = !(p.retryQueue.dropWhile accept).isEmpty := by
  unfold Gem5MemoryPort.handleRetry
  rw [show ({ p with stalled := false } : Gem5MemoryPort) = ⟨false, p.retryQueue⟩ from rfl,
    Gem5MemoryPort.handleRetryGo_spec]
  simp

/-- C2 counterexample: with requests `A, B, C` (ids 1, 2, 3) queued in that
order and a downstream that refuses `A` again, a single retry notification
leaves the retry queue as `[B, C, A]` — the refused request has lost its
place at the front — refuting the claimed preservation of the original
relative order. -/
theorem handleRetry_moves_refused_request_to_back :
    ((Gem5MemoryPort.mk true
        [MemoryRequest.make 1 MemoryRequestType.Read 0 4,
         MemoryRequest.make 2 MemoryRequestType.Read 8 4,
         MemoryRequest.make 3 MemoryRequestType.Read 16 4]).handleRetry
      (fun r => decide (r.id ≠ 1))).1.retryQueue =
      [MemoryRequest.make 2 MemoryRequestType.Read 8 4,
       MemoryRequest.make 3 MemoryRequestType.Read 16 4,
       MemoryRequest.make 1 MemoryRequestType.Read 0 4] ∧
    [MemoryRequest.make 2 MemoryRequestType.Read 8 4,
     MemoryRequest.make 3 MemoryRequestType.Read 16 4,
     MemoryRequest.make 1 MemoryRequestType.Read 0 4] ≠
      [MemoryRequest.make 1 MemoryRequestType.Read 0 4,
       MemoryRequest.make 2 MemoryRequestType.Read 8 4,
       MemoryRequest.make 3 MemoryRequestType.Read 16 4] := by
  refine ⟨by decide, by decide⟩

/-! ### Statistics engine enumerations (`temp_hw_statistics_enhanced.hh`) -/

/-- `FUType` (temp_hw_statistics_enhanced.hh:41, base variant
temp_hw_statistics.hh:38; the enhanced header prefixes each enumerator with
`FU_TYPE_`, the enumerator order is identical). -/
inductive FUType where
  | COUNTER
  | INT_ADD_SUB
  | INT_MUL_DIV
  | INT_SHIFT
  | INT_BITWISE
  | FP_FLOAT_ADD_SUB
  | FP_FLOAT_MUL_DIV
  | FP_DOUBLE_ADD_SUB
  | FP_DOUBLE_MUL_DIV
  | ZERO_CYCLE
  | GEP
  | CONVERSION
  | OTHER
  deriving DecidableEq, Repr

/-- The 13 `FUType` enumerators in increasing enumerator-value order, as
iterated by the `for (int i = 0; i < FU_TYPE_COUNT; i++)` loops. -/
def fuTypeOrder : List FUType :=
  [FUType.COUNTER, FUType.INT_ADD_SUB, FUType.INT_MUL_DIV, FUType.INT_SHIFT,
   FUType.INT_BITWISE, FUType.FP_FLOAT_ADD_SUB, FUType.FP_FLOAT_MUL_DIV,
   FUType.FP_DOUBLE_ADD_SUB, FUType.FP_DOUBLE_MUL_DIV, FUType.ZERO_CYCLE,
   FUType.GEP, FUType.CONVERSION, FUType.OTHER]

/-- `StallCause` (temp_hw_statistics_enhanced.hh:59), `NONE = 0` first. -/
inductive StallCause where
  | NONE
  | MEMORY_LATENCY
  | RAW_HAZARD
  | WAW_HAZARD
  | WAR_HAZARD
  | FU_CONTENTION
  | PORT_CONTENTION
  | CONTROL_FLOW
  | DMA_PENDING
  | RESOURCE_LIMIT
  deriving DecidableEq, Repr

/-- The causes with enumerator values `1 .. 9` in increasing order: exactly
the index range iterated by `getDominantCause`'s
`for (int i = 1; i < STALL_CAUSE_COUNT; i++)` loop. -/
def stallCauseOrder : List StallCause :=
  [StallCause.MEMORY_LATENCY, StallCause.RAW_HAZARD, StallCause.WAW_HAZARD,
   StallCause.WAR_HAZARD, StallCause.FU_CONTENTION, StallCause.PORT_CONTENTION,
   StallCause.CONTROL_FLOW, StallCause.DMA_PENDING, StallCause.RESOURCE_LIMIT]

/-- `StallBreakdown` (temp_hw_statistics_enhanced.hh:366).  The `uint64_t`
arrays indexed by `static_cast<int>` of an enumeration are embedded as
functions from the enumeration. -/
structure StallBreakdown where
  by_cause : StallCause → ℕ
  memory_read_stalls : ℕ
  memory_write_stalls : ℕ
  cache_miss_stalls : ℕ
  dma_stalls : ℕ
  raw_stalls : ℕ
  waw_stalls : ℕ
  war_stalls : ℕ
  fu_stalls_by_type : FUType → ℕ
  read_port_stalls : ℕ
  write_port_stalls : ℕ
  reservation_full_stalls : ℕ
  compute_queue_full_stalls : ℕ
  total_stall_cycles : ℕ
  max_consecutive_stalls : ℕ
  current_stall_streak : ℕ
  stall_events : ℕ

/-- The all-zero `StallBreakdown`: the in-class member initializers
(temp_hw_statistics_enhanced.hh:368-392), also the state produced by
`StallBreakdown::reset()`. -/
def StallBreakdown.init : StallBreakdown :=
  { by_cause := fun _ => 0
    memory_read_stalls := 0
    memory_write_stalls := 0
    cache_miss_stalls := 0
    dma_stalls := 0
    raw_stalls := 0
    waw_stalls := 0
    war_stalls := 0
    fu_stalls_by_type := fun _ => 0
    read_port_stalls := 0
    write_port_stalls := 0
    reservation_full_stalls := 0
    compute_queue_full_stalls := 0
    total_stall_cycles := 0
    max_consecutive_stalls := 0
    current_stall_streak := 0
    stall_events := 0 }

/-- `StallBreakdown::recordStall(cause)` (temp_hw_statistics_enhanced.hh:429):
bump the per-cause counter and the total, extend the current streak, and fold
it into the running maximum.  `HWStatistics::recordStallCause`
(temp_hw_statistics_enhanced.cc:615) forwards here unchanged. -/
def StallBreakdown.recordStall (s : StallBreakdown) (cause : StallCause) : StallBreakdown :=
  { s with
    by_cause := fun c => if c = cause then s.by_cause c + 1 else s.by_cause c
    total_stall_cycles := s.total_stall_cycles + 1
    current_stall_streak := s.current_stall_streak + 1
    max_consecutive_stalls := max s.max_consecutive_stalls (s.current_stall_streak + 1) }

/-- `StallBreakdown::recordNoStall()` (temp_hw_statistics_enhanced.hh:436):
close the streak, counting a stall event only if the streak was non-empty.
`HWStatistics::recordNoStall` (temp_hw_statistics_enhanced.cc:619) forwards
here unchanged. -/
def StallBreakdown.recordNoStall (s : StallBreakdown) : StallBreakdown :=
  { s with
    stall_events := if s.current_stall_streak > 0 then s.stall_events + 1 else s.stall_events
    current_stall_streak := 0 }

/-- The loop body of `StallBreakdown::getDominantCause`
(temp_hw_statistics_enhanced.hh:401-406): keep the running
`(dominant, max_stalls)` pair, replacing it only on a strictly larger count. -/
def argmaxStep (f : StallCause → ℕ) (acc : StallCause × ℕ) (c : StallCause) :
    StallCause × ℕ :=
  if f c > acc.2 then (c, f c) else acc

/-- `StallBreakdown::getDominantCause` (temp_hw_statistics_enhanced.hh:398):
fold `argmaxStep` over causes `1 .. 9` starting from `(NONE, 0)`. -/
def StallBreakdown.getDominantCause (s : StallBreakdown) : StallCause :=
  (stallCauseOrder.foldl (argmaxStep s.by_cause) (StallCause.NONE, 0)).1

/-- `StallBreakdown::getDominantBottleneck`
(temp_hw_statistics_enhanced.hh:410): name the dominant cause; the `default`
arm (covering `NONE`, `WAW_HAZARD`, `WAR_HAZARD`) yields `"none"`. -/
def StallBreakdown.getDominantBottleneck (s : StallBreakdown) : String :=
  match s.getDominantCause with
  | StallCause.MEMORY_LATENCY => "memory_latency"
  | StallCause.RAW_HAZARD => "data_dependency"
  | StallCause.FU_CONTENTION => "compute_bound"
  | StallCause.PORT_CONTENTION => "memory_bandwidth"
  | StallCause.CONTROL_FLOW => "control_flow"
  | StallCause.DMA_PENDING => "dma"
  | StallCause.RESOURCE_LIMIT => "resource_limit"
  | _ => "none"

/-- Modelled from the spec's words, for comparison against the code: "the
cause (excluding `none`) with the highest cumulative count; ties resolve to
the lowest-valued enumerator encountered first" — i.e. the first cause in
enumerator order whose count is maximal among causes `1 .. 9`. -/
def specDominantCause (s : StallBreakdown) : StallCause :=
  ((stallCauseOrder.find? fun c =>
      decide (∀ c' ∈ stallCauseOrder, s.by_cause c' ≤ s.by_cause c)).getD
    StallCause.NONE)

/-- A run of `recordStall` calls extends the streak by its length. -/
theorem foldl_recordStall_streak (causes : List StallCause) :
    ∀ s : StallBreakdown,
      (causes.foldl StallBreakdown.recordStall s).current_stall_streak =
        s.current_stall_streak + causes.length := by
  induction causes with
  | nil => intro s; simp
  | cons c cs ih =>
    intro s
    rw [List.foldl_cons, ih]
    simp [StallBreakdown.recordStall]
    omega

/-- `recordStall` never touches `stall_events`. -/
theorem foldl_recordStall_events (causes : List StallCause) :
    ∀ s : StallBreakdown,
      (causes.foldl StallBreakdown.recordStall s).stall_events = s.stall_events := by
  induction causes with
  | nil => intro s; simp
  | cons c cs ih =>
    intro s
    rw [List.foldl_cons, ih]
    rfl

/-- The running maximum dominates the streak throughout a `recordStall` run. -/
theorem foldl_recordStall_max_ge (causes : List StallCause) :
    ∀ s : StallBreakdown,
      s.current_stall_streak ≤ s.max_consecutive_stalls →
      (causes.foldl StallBreakdown.recordStall s).current_stall_streak ≤
        (causes.foldl StallBreakdown.recordStall s).max_consecutive_stalls := by
  induction causes with
  | nil => intro s h; simpa using h
  | cons c cs ih =>
    intro s _
    rw [List.foldl_cons]
    exact ih _ (by simp [StallBreakdown.recordStall])

/-- C7: starting from a zero streak, `N ≥ 1` consecutive `recordStall` calls
followed by one `recordNoStall` leave `max_consecutive_stalls ≥ N` and add
exactly one to `stall_events`; `recordNoStall` on a zero streak leaves
`stall_events` unchanged. -/
theorem recordStall_streak_behaviour (s : StallBreakdown) (causes : List StallCause)
    (hz : s.current_stall_streak = 0) (hne : causes ≠ []) :
    causes.length ≤
      ((causes.foldl StallBreakdown.recordStall s).recordNoStall).max_consecutive_stalls ∧
    ((causes.foldl StallBreakdown.recordStall s).recordNoStall).stall_events =
      s.stall_events + 1 ∧
    s.recordNoStall.stall_events = s.stall_events := by
  have hstreak := foldl_recordStall_streak causes s
  have hmax := foldl_recordStall_max_ge causes s (by omega)
  have hev := foldl_recordStall_events causes s
  have hlen : 0 < causes.length := List.length_pos.mpr hne
  refine ⟨?_, ?_, ?_⟩
  · show causes.length ≤ (causes.foldl StallBreakdown.recordStall s).max_consecutive_stalls
    omega
  · show (if (causes.foldl StallBreakdown.recordStall s).current_stall_streak > 0
        then (causes.foldl StallBreakdown.recordStall s).stall_events + 1
        else (causes.foldl StallBreakdown.recordStall s).stall_events) = s.stall_events + 1
    rw [if_pos (by omega), hev]
  · show (if s.current_stall_streak > 0 then s.stall_events + 1 else s.stall_events) =
      s.stall_events
    rw [if_neg (by omega)]

/-- C7 witness: three stalls then one `recordNoStall` from the pristine
breakdown. -/
theorem recordStall_streak_behaviour_witness :
    StallBreakdown.init.current_stall_streak = 0 ∧
    ([StallCause.MEMORY_LATENCY, StallCause.RAW_HAZARD, StallCause.MEMORY_LATENCY] ≠
      ([] : List StallCause)) ∧
    ([StallCause.MEMORY_LATENCY, StallCause.RAW_HAZARD,
        StallCause.MEMORY_LATENCY].length ≤
      ((([StallCause.MEMORY_LATENCY, StallCause.RAW_HAZARD,
          StallCause.MEMORY_LATENCY].foldl StallBreakdown.recordStall
            StallBreakdown.init)).recordNoStall).max_consecutive_stalls ∧
      ((([StallCause.MEMORY_LATENCY, StallCause.RAW_HAZARD,
          StallCause.MEMORY_LATENCY].foldl StallBreakdown.recordStall
            StallBreakdown.init)).recordNoStall).stall_events =
        StallBreakdown.init.stall_events + 1 ∧
      StallBreakdown.init.recordNoStall.stall_events = StallBreakdown.init.stall_events) :=
  ⟨rfl, by decide, recordStall_streak_behaviour StallBreakdown.init _ rfl (by decide)⟩

/-- The initial accumulator is a lower bound for the running-maximum fold. -/
theorem foldl_max_init_le (f : StallCause → ℕ) (l : List StallCause) :
    ∀ m : ℕ, m ≤ l.foldl (fun a c => max a (f c)) m := by
  induction l with
  | nil => intro m; simp
  | cons c cs ih =>
    intro m
    rw [List.foldl_cons]
    exact le_trans (Nat.le_max_left m (f c)) (ih _)

/-- Every listed count is a lower bound for the running-maximum fold. -/
theorem foldl_max_mem_le (f : StallCause → ℕ) (l : List StallCause) :
    ∀ (m : ℕ) (c : StallCause), c ∈ l → f c ≤ l.foldl (fun a c' => max a (f c')) m := by
  induction l with
  | nil => intro m c hc; cases hc
  | cons b cs ih =>
    intro m c hc
    rw [List.foldl_cons]
    rcases List.mem_cons.mp hc with h | h
    · subst h
      exact le_trans (Nat.le_max_right m (f c)) (foldl_max_init_le f cs _)
    · exact ih _ c h

/-- The running-maximum fold is bounded by any common upper bound. -/
theorem foldl_max_le (f : StallCause → ℕ) (l : List StallCause) :
    ∀ (m x : ℕ), m ≤ x → (∀ c ∈ l, f c ≤ x) →
      l.foldl (fun a c => max a (f c)) m ≤ x := by
  induction l with
  | nil => intro m x hm _; simpa using hm
  | cons c cs ih =>
    intro m x hm hall
    rw [List.foldl_cons]
    exact ih _ x (max_le hm (hall c (List.mem_cons_self c cs)))
      (fun c' hc' => hall c' (List.mem_cons_of_mem c hc'))

/-- If no listed count exceeds the accumulator, the argmax fold is inert. -/
theorem argmax_fold_le (f : StallCause → ℕ) (l : List StallCause) :
    ∀ (d : StallCause) (m : ℕ), (∀ c ∈ l, f c ≤ m) →
      l.foldl (argmaxStep f) (d, m) = (d, m) := by
  induction l with
  | nil => intro d m _; rfl
  | cons c cs ih =>
    intro d m hall
    rw [List.foldl_cons]
    have hstep : argmaxStep f (d, m) c = (d, m) := by
      unfold argmaxStep
      rw [if_neg (by exact absurd · (Nat.not_lt.mpr (hall c (List.mem_cons_self c cs))))]
    rw [hstep]
    exact ih d m (fun c' hc' => hall c' (List.mem_cons_of_mem c hc'))

/-- `find?` only depends on the predicate's values on the list. -/
theorem find?_congr_on (l : List StallCause) (p q : StallCause → Bool)
    (h : ∀ a ∈ l, p a = q a) : l.find? p = l.find? q := by
  induction l with
  | nil => rfl
  | cons a t ih =>
    have ha := h a (List.mem_cons_self a t)
    by_cases hpa : p a = true
    · rw [List.find?_cons_of_pos _ hpa, List.find?_cons_of_pos _ (show q a = true by
        rw [← ha]; exact hpa)]
    · have hqa : ¬ q a = true := by
        rw [← ha]
        exact hpa
      rw [List.find?_cons_of_neg _ hpa, List.find?_cons_of_neg _ hqa,
        ih (fun b hb => h b (List.mem_cons_of_mem a hb))]

/-- Characterization of the strict-improvement argmax fold: as soon as some
listed count exceeds the seed, the fold's winner is the first list element
attaining the running maximum `F`. -/
theorem argmax_fold_find (f : StallCause → ℕ) (l : List StallCause) :
    ∀ (d : StallCause) (m F : ℕ),
      l.foldl (fun a c => max a (f c)) m = F →
      (∃ c ∈ l, m < f c) →
      l.find? (fun c => decide (F ≤ f c)) = some (l.foldl (argmaxStep f) (d, m)).1 := by
  induction l with
  | nil =>
    intro d m F _ hex
    obtain ⟨c, hc, _⟩ := hex
    cases hc
  | cons c cs ih =>
    intro d m F hF hex
    rw [List.foldl_cons] at hF ⊢
    by_cases h : m < f c
    · have hstep : argmaxStep f (d, m) c = (c, f c) := by
        unfold argmaxStep
        rw [if_pos h]
      rw [hstep]
      rw [Nat.max_eq_right (Nat.le_of_lt h)] at hF
      by_cases h2 : ∃ c' ∈ cs, f c < f c'
      · obtain ⟨c', hc', hgt⟩ := h2
        have hFge : f c' ≤ F := hF ▸ foldl_max_mem_le f cs (f c) c' hc'
        have hcfalse : ¬ (decide (F ≤ f c)) = true := by
          simp only [decide_eq_true_eq]
          omega
        rw [List.find?_cons_of_neg (p := fun c' => decide (F ≤ f c')) _ hcfalse]
        exact ih c (f c) F hF ⟨c', hc', hgt⟩
      · push_neg at h2
        have hres : cs.foldl (argmaxStep f) (c, f c) = (c, f c) := argmax_fold_le f cs c (f c) h2
        have hFv : F = f c := by
          rw [← hF]
          exact Nat.le_antisymm (foldl_max_le f cs (f c) (f c) le_rfl h2)
            (foldl_max_init_le f cs (f c))
        have hctrue : (decide (F ≤ f c)) = true := by
          simp [hFv]
        rw [List.find?_cons_of_pos (p := fun c' => decide (F ≤ f c')) _ hctrue, hres]
    · have hstep : argmaxStep f (d, m) c = (d, m) := by
        unfold argmaxStep
        rw [if_neg h]
      rw [hstep]
      rw [Nat.max_eq_left (Nat.le_of_not_lt h)] at hF
      have h2 : ∃ c' ∈ cs, m < f c' := by
        obtain ⟨c', hc', hlt⟩ := hex
        rcases List.mem_cons.mp hc' with he | he
        · subst he
          exact absurd hlt h
        · exact ⟨c', he, hlt⟩
      obtain ⟨c', hc', hlt⟩ := h2
      have hFge : f c' ≤ F := hF ▸ foldl_max_mem_le f cs m c' hc'
      have hcfalse : ¬ (decide (F ≤ f c)) = true := by
        simp only [decide_eq_true_eq]
        omega
      rw [List.find?_cons_of_neg (p := fun c' => decide (F ≤ f c')) _ hcfalse]
      exact ih d m F hF ⟨c', hc', hlt⟩

/-- C8 amended: whenever at least one cause other than `NONE` has a positive
count, `getDominantCause` returns the non-`NONE` cause with the highest
cumulative count, ties resolving to the lowest-valued enumerator — i.e. it
agrees with the spec-derived `specDominantCause` — and in particular is not
`NONE`.  (With all counts zero the code returns `NONE` instead; see the
counterexample.) -/
theorem getDominantCause_is_argmax (s : StallBreakdown)
    (hpos : ∃ c ∈ stallCauseOrder, 0 < s.by_cause c) :
    s.getDominantCause = specDominantCause s ∧
    s.getDominantCause ≠ StallCause.NONE := by
  have hfind := argmax_fold_find s.by_cause stallCauseOrder StallCause.NONE 0
    (stallCauseOrder.foldl (fun a c => max a (s.by_cause c)) 0) rfl hpos
  have hpred : ∀ c ∈ stallCauseOrder,
      (decide (∀ c' ∈ stallCauseOrder, s.by_cause c' ≤ s.by_cause c)) =
      (decide (stallCauseOrder.foldl (fun a c' => max a (s.by_cause c')) 0 ≤ s.by_cause c)) := by
    intro c _
    apply decide_eq_decide.mpr
    constructor
    · intro hall
      exact foldl_max_le s.by_cause stallCauseOrder 0 (s.by_cause c) (Nat.zero_le _) hall
    · intro hFle c' hc'
      exact le_trans (foldl_max_mem_le s.by_cause stallCauseOrder 0 c' hc') hFle
  have hspec : specDominantCause s = s.getDominantCause := by
    unfold specDominantCause StallBreakdown.getDominantCause
    rw [find?_congr_on _ _ _ hpred, hfind]
    rfl
  refine ⟨hspec.symm, ?_⟩
  have hmem := List.mem_of_find?_eq_some hfind
  intro hEq
  rw [show (stallCauseOrder.foldl (argmaxStep s.by_cause) (StallCause.NONE, 0)).1 =
      s.getDominantCause from rfl, hEq] at hmem
  exact absurd hmem (by decide)

/-- C8 witness: after 10 `MEMORY_LATENCY` stalls and 3 `FU_CONTENTION`
stalls, the dominant cause is `MEMORY_LATENCY` and the dominant bottleneck is
`"memory_latency"`. -/
theorem getDominantCause_is_argmax_witness :
    (∃ c ∈ stallCauseOrder,
      0 < ((List.replicate 10 StallCause.MEMORY_LATENCY ++
            List.replicate 3 StallCause.FU_CONTENTION).foldl
          StallBreakdown.recordStall StallBreakdown.init).by_cause c) ∧
    (((List.replicate 10 StallCause.MEMORY_LATENCY ++
        List.replicate 3 StallCause.FU_CONTENTION).foldl
      StallBreakdown.recordStall StallBreakdown.init).getDominantCause =
      specDominantCause ((List.replicate 10 StallCause.MEMORY_LATENCY ++
          List.replicate 3 StallCause.FU_CONTENTION).foldl
        StallBreakdown.recordStall StallBreakdown.init) ∧
      ((List.replicate 10 StallCause.MEMORY_LATENCY ++
          List.replicate 3 StallCause.FU_CONTENTION).foldl
        StallBreakdown.recordStall StallBreakdown.init).getDominantCause ≠
        StallCause.NONE) ∧
    ((List.replicate 10 StallCause.MEMORY_LATENCY ++
        List.replicate 3 StallCause.FU_CONTENTION).foldl
      StallBreakdown.recordStall StallBreakdown.init).getDominantCause =
      StallCause.MEMORY_LATENCY ∧
    ((List.replicate 10 StallCause.MEMORY_LATENCY ++
        List.replicate 3 StallCause.FU_CONTENTION).foldl
      StallBreakdown.recordStall StallBreakdown.init).getDominantBottleneck =
      "memory_latency" :=
  ⟨by decide, getDominantCause_is_argmax _ (by decide), by decide, by decide⟩

/-- C8 counterexample: on the pristine (all-zero) breakdown the code returns
`NONE`, whereas the claimed rule — highest count among causes other than
`NONE`, ties to the lowest-valued enumerator — picks `MEMORY_LATENCY` (all
nine causes tie at zero). -/
theorem getDominantCause_disagrees_at_zero :
    StallBreakdown.init.getDominantCause = StallCause.NONE ∧
    specDominantCause StallBreakdown.init = StallCause.MEMORY_LATENCY ∧
    StallBreakdown.init.getDominantCause ≠ specDominantCause StallBreakdown.init := by
  refine ⟨by decide, by decide, by decide⟩

/-- C6 witness: an 8-byte memory at base 0, write `[5, 6, 7]` at address 2 and
read it back. -/
theorem simpleMemory_roundtrip_witness :
    (SimpleMemory.mk 0 (List.replicate 8 0)).base +
        (SimpleMemory.mk 0 (List.replicate 8 0)).storage.length < 2 ^ 64 ∧
    ({ MemoryRequest.make 1 MemoryRequestType.Write 2 3 with
        data := [5, 6, 7] } : MemoryRequest).addr +
        ({ MemoryRequest.make 1 MemoryRequestType.Write 2 3 with
            data := [5, 6, 7] } : MemoryRequest).size ≤
      (SimpleMemory.mk 0 (List.replicate 8 0)).base +
        (SimpleMemory.mk 0 (List.replicate 8 0)).storage.length ∧
    ((((SimpleMemory.mk 0 (List.replicate 8 0)).recvFunctional
          { MemoryRequest.make 1 MemoryRequestType.Write 2 3 with
              data := [5, 6, 7] }).1.recvFunctional
        (MemoryRequest.make 2 MemoryRequestType.Read 2 3)).2.data =
        ({ MemoryRequest.make 1 MemoryRequestType.Write 2 3 with
            data := [5, 6, 7] } : MemoryRequest).data ∧
      (((SimpleMemory.mk 0 (List.replicate 8 0)).recvFunctional
          { MemoryRequest.make 1 MemoryRequestType.Write 2 3 with
              data := [5, 6, 7] }).1.recvFunctional
        (MemoryRequest.make 2 MemoryRequestType.Read 2 3)).2.success = true ∧
      ((SimpleMemory.mk 0 (List.replicate 8 0)).recvFunctional
        { MemoryRequest.make 1 MemoryRequestType.Write 2 3 with
            data := [5, 6, 7] }).2.success = true) :=
  ⟨by decide, by decide,
    simpleMemory_roundtrip _ _ _ (by decide) (by decide) (by decide) rfl rfl rfl rfl rfl⟩

/-! ### Summary statistics data model (`temp_hw_statistics_enhanced.hh`)

The substructures of `SummaryStats`, with C++ `int`/`int64_t` as `ℤ`,
`uint64_t`/`size_t` as `ℕ`, `double` as `ℚ`, enum-indexed arrays as functions
from the enumeration, and the `std::map` address/histogram tables as
functions. -/

/-- `StallType` (temp_hw_statistics_enhanced.hh:30). -/
inductive StallType where
  | LOAD_ONLY
  | STORE_ONLY
  | COMP_ONLY
  | LOAD_STORE
  | LOAD_COMP
  | STORE_COMP
  | LOAD_STORE_COMP
  deriving DecidableEq, Repr

/-- `PerformanceStats` (temp_hw_statistics_enhanced.hh:505). -/
structure PerformanceStats where
  setup_time_ns : ℚ
  sim_time_ns : ℚ
  clock_period_ns : ℤ
  sys_clock_ghz : ℚ
  total_cycles : ℤ
  stall_cycles : ℤ
  executed_nodes : ℤ
  stall_breakdown : StallType → ℤ
  node_breakdown : StallType → ℤ

/-- `FURuntimeStats` (temp_hw_statistics_enhanced.hh:528). -/
structure FURuntimeStats where
  max_concurrent : ℤ
  avg_occupancy : ℚ

/-- `FunctionalUnitStats` (temp_hw_statistics_enhanced.hh:533). -/
structure FunctionalUnitStats where
  runtime : FUType → FURuntimeStats
  static_count : FUType → ℤ

/-- `MemoryStats` (temp_hw_statistics_enhanced.hh:546). -/
structure MemoryStats where
  cache_size_kb : ℤ
  cache_ports : ℤ
  spm_size_kb : ℤ
  spm_read_ports : ℤ
  spm_write_ports : ℤ
  read_bus_width : ℤ
  write_bus_width : ℤ
  local_ports : ℤ
  mem_reads : ℤ
  mem_writes : ℤ
  dma_reads : ℤ
  dma_writes : ℤ

/-- `RegisterStats` (temp_hw_statistics_enhanced.hh:568). -/
structure RegisterStats where
  total : ℤ
  max_usage : ℤ
  avg_usage : ℚ
  avg_size_bytes : ℚ
  reads : ℤ
  writes : ℤ

/-- `PowerStats` (temp_hw_statistics_enhanced.hh:583); the base variant
(temp_hw_statistics.hh:142) has the same fields minus the four energy
metrics, which its operations simply never touch. -/
structure PowerStats where
  fu_leakage : ℚ
  fu_dynamic : ℚ
  fu_total : ℚ
  reg_leakage : ℚ
  reg_dynamic : ℚ
  reg_total : ℚ
  spm_leakage : ℚ
  spm_read_dynamic : ℚ
  spm_write_dynamic : ℚ
  spm_total : ℚ
  cache_leakage : ℚ
  cache_read_dynamic : ℚ
  cache_write_dynamic : ℚ
  cache_total : ℚ
  total_power : ℚ
  acc_spm_total : ℚ
  acc_cache_total : ℚ
  total_energy_nj : ℚ
  fu_energy_nj : ℚ
  mem_energy_nj : ℚ
  reg_energy_nj : ℚ

/-- `AreaStats` (temp_hw_statistics_enhanced.hh:618). -/
structure AreaStats where
  fu_area_um2 : ℚ
  reg_area_um2 : ℚ
  spm_area_um2 : ℚ
  cache_area_um2 : ℚ
  total_area_um2 : ℚ
  acc_spm_area_um2 : ℚ
  acc_cache_area_um2 : ℚ
  fu_area_by_type : FUType → ℚ

/-- `CycleStatsSummary` (temp_hw_statistics_enhanced.hh:641). -/
structure CycleStatsSummary where
  total_samples : ℤ
  avg_res_in_flight : ℚ
  avg_load_in_flight : ℚ
  avg_store_in_flight : ℚ
  avg_comp_in_flight : ℚ
  peak_res_in_flight : ℤ
  peak_load_in_flight : ℤ
  peak_store_in_flight : ℤ
  peak_comp_in_flight : ℤ
  total_load_raw_stalls : ℤ
  total_comp_fu_stalls : ℤ

/-- The zero-initialized `CycleStatsSummary`. -/
def CycleStatsSummary.init : CycleStatsSummary :=
  { total_samples := 0
    avg_res_in_flight := 0
    avg_load_in_flight := 0
    avg_store_in_flight := 0
    avg_comp_in_flight := 0
    peak_res_in_flight := 0
    peak_load_in_flight := 0
    peak_store_in_flight := 0
    peak_comp_in_flight := 0
    total_load_raw_stalls := 0
    total_comp_fu_stalls := 0 }

/-- `MemoryAccessStats` (temp_hw_statistics_enhanced.hh:90); the two
`std::map<uint64_t, uint64_t>` heatmap tables are embedded as total functions
that are zero off the touched buckets. -/
structure MemoryAccessStats where
  cache_hits : ℕ
  cache_misses : ℕ
  cache_read_hits : ℕ
  cache_read_misses : ℕ
  cache_write_hits : ℕ
  cache_write_misses : ℕ
  spm_reads : ℕ
  spm_writes : ℕ
  spm_read_bytes : ℕ
  spm_write_bytes : ℕ
  dma_read_requests : ℕ
  dma_write_requests : ℕ
  dma_read_bytes : ℕ
  dma_write_bytes : ℕ
  dma_read_latency_total : ℕ
  dma_write_latency_total : ℕ
  total_read_latency : ℕ
  total_write_latency : ℕ
  min_read_latency : ℕ
  max_read_latency : ℕ
  min_write_latency : ℕ
  max_write_latency : ℕ
  read_count : ℕ
  write_count : ℕ
  total_bytes_read : ℕ
  total_bytes_written : ℕ
  peak_read_bandwidth_cycle : ℕ
  peak_write_bandwidth_cycle : ℕ
  peak_read_bytes_per_cycle : ℕ
  peak_write_bytes_per_cycle : ℕ
  read_port_stalls : ℕ
  write_port_stalls : ℕ
  queue_full_stalls : ℕ
  address_read_counts : ℕ → ℕ
  address_write_counts : ℕ → ℕ
  address_granularity : ℕ

/-- `DataflowStats` (temp_hw_statistics_enhanced.hh:215). -/
structure DataflowStats where
  critical_path_length : ℤ
  critical_path_instructions : ℤ
  critical_path_loads : ℤ
  critical_path_stores : ℤ
  critical_path_computes : ℤ
  avg_ready_instructions : ℚ
  avg_issued_per_cycle : ℚ
  max_parallel_ops : ℤ
  total_instructions : ℤ
  true_dependencies : ℕ
  anti_dependencies : ℕ
  output_dependencies : ℕ
  control_dependencies : ℕ
  memory_dependencies : ℕ
  avg_dependency_depth : ℚ
  max_dependency_depth : ℤ
  total_dependency_edges : ℤ
  parallelism_histogram : ℤ → ℕ
  critical_path_by_opcode : ℤ → ℤ

/-- `FUInstanceStats` (temp_hw_statistics_enhanced.hh:280). -/
structure FUInstanceStats where
  instance_id : ℤ
  busy_cycles : ℕ
  idle_cycles : ℕ
  operations_executed : ℕ

/-- `FUTypeUtilizationStats` (temp_hw_statistics_enhanced.hh:291). -/
structure FUTypeUtilizationStats where
  type : FUType
  instances_available : ℤ
  max_concurrent_used : ℤ
  total_busy_cycles : ℕ
  total_operations : ℕ
  contention_stalls : ℕ
  contention_requests : ℕ
  instance_stats : List FUInstanceStats
  busy_intervals : List (ℕ × ℕ)

/-- `FUUtilizationStats` (temp_hw_statistics_enhanced.hh:325). -/
structure FUUtilizationStats where
  by_type : FUType → FUTypeUtilizationStats
  total_fu_busy_cycles : ℕ
  total_fu_idle_cycles : ℕ
  total_contention_stalls : ℕ

/-- `SummaryStats` (temp_hw_statistics_enhanced.hh:659). -/
structure SummaryStats where
  accelerator_name : String
  timestamp : String
  version : String
  performance : PerformanceStats
  functional_units : FunctionalUnitStats
  memory : MemoryStats
  registers : RegisterStats
  power : PowerStats
  area : AreaStats
  cycle_summary : CycleStatsSummary
  memory_access : MemoryAccessStats
  dataflow : DataflowStats
  fu_utilization : FUUtilizationStats
  stall_breakdown : StallBreakdown

/-- The zero-reset `PerformanceStats` (`reset()`, hh:518). -/
def PerformanceStats.init : PerformanceStats :=
  { setup_time_ns := 0, sim_time_ns := 0, clock_period_ns := 0, sys_clock_ghz := 0
    total_cycles := 0, stall_cycles := 0, executed_nodes := 0
    stall_breakdown := fun _ => 0, node_breakdown := fun _ => 0 }

/-- The zero-reset `FunctionalUnitStats` (`reset()`, hh:537). -/
def FunctionalUnitStats.init : FunctionalUnitStats :=
  { runtime := fun _ => { max_concurrent := 0, avg_occupancy := 0 }
    static_count := fun _ => 0 }

/-- The zero-reset `MemoryStats` (`reset()`, hh:560). -/
def MemoryStats.init : MemoryStats :=
  { cache_size_kb := 0, cache_ports := 0, spm_size_kb := 0, spm_read_ports := 0
    spm_write_ports := 0, read_bus_width := 0, write_bus_width := 0, local_ports := 0
    mem_reads := 0, mem_writes := 0, dma_reads := 0, dma_writes := 0 }

/-- The zero-reset `RegisterStats` (`reset()`, hh:576). -/
def RegisterStats.init : RegisterStats :=
  { total := 0, max_usage := 0, avg_usage := 0, avg_size_bytes := 0, reads := 0, writes := 0 }

/-- The zero-reset `PowerStats` (`reset()`, hh:608). -/
def PowerStats.init : PowerStats :=
  { fu_leakage := 0, fu_dynamic := 0, fu_total := 0, reg_leakage := 0, reg_dynamic := 0
    reg_total := 0, spm_leakage := 0, spm_read_dynamic := 0, spm_write_dynamic := 0
    spm_total := 0, cache_leakage := 0, cache_read_dynamic := 0, cache_write_dynamic := 0
    cache_total := 0, total_power := 0, acc_spm_total := 0, acc_cache_total := 0
    total_energy_nj := 0, fu_energy_nj := 0, mem_energy_nj := 0, reg_energy_nj := 0 }

/-- The zero-reset `AreaStats` (`reset()`, hh:632). -/
def AreaStats.init : AreaStats :=
  { fu_area_um2 := 0, reg_area_um2 := 0, spm_area_um2 := 0, cache_area_um2 := 0
    total_area_um2 := 0, acc_spm_area_um2 := 0, acc_cache_area_um2 := 0
    fu_area_by_type := fun _ => 0 }

/-- The reset `MemoryAccessStats` (`reset()`, hh:190); the minimum-latency
trackers start at `numeric_limits<uint64_t>::max()`. -/
def MemoryAccessStats.init : MemoryAccessStats :=
  { cache_hits := 0, cache_misses := 0, cache_read_hits := 0, cache_read_misses := 0
    cache_write_hits := 0, cache_write_misses := 0, spm_reads := 0, spm_writes := 0
    spm_read_bytes := 0, spm_write_bytes := 0, dma_read_requests := 0
    dma_write_requests := 0, dma_read_bytes := 0, dma_write_bytes := 0
    dma_read_latency_total := 0, dma_write_latency_total := 0, total_read_latency := 0
    total_write_latency := 0, min_read_latency := 2 ^ 64 - 1, max_read_latency := 0
    min_write_latency := 2 ^ 64 - 1, max_write_latency := 0, read_count := 0
    write_count := 0, total_bytes_read := 0, total_bytes_written := 0
    peak_read_bandwidth_cycle := 0, peak_write_bandwidth_cycle := 0
    peak_read_bytes_per_cycle := 0, peak_write_bytes_per_cycle := 0
    read_port_stalls := 0, write_port_stalls := 0, queue_full_stalls := 0
    address_read_counts := fun _ => 0, address_write_counts := fun _ => 0
    address_granularity := 64 }

/-- The zero-reset `DataflowStats` (`reset()`, hh:262). -/
def DataflowStats.init : DataflowStats :=
  { critical_path_length := 0, critical_path_instructions := 0, critical_path_loads := 0
    critical_path_stores := 0, critical_path_computes := 0, avg_ready_instructions := 0
    avg_issued_per_cycle := 0, max_parallel_ops := 0, total_instructions := 0
    true_dependencies := 0, anti_dependencies := 0, output_dependencies := 0
    control_dependencies := 0, memory_dependencies := 0, avg_dependency_depth := 0
    max_dependency_depth := 0, total_dependency_edges := 0
    parallelism_histogram := fun _ => 0, critical_path_by_opcode := fun _ => 0 }

/-- The reset `FUUtilizationStats` (`reset()`, hh:353): each per-type record
is cleared and tagged with its own type. -/
def FUUtilizationStats.init : FUUtilizationStats :=
  { by_type := fun t =>
      { type := t, instances_available := 0, max_concurrent_used := 0
        total_busy_cycles := 0, total_operations := 0, contention_stalls := 0
        contention_requests := 0, instance_stats := [], busy_intervals := [] }
    total_fu_busy_cycles := 0, total_fu_idle_cycles := 0, total_contention_stalls := 0 }

/-- The reset `SummaryStats` (`reset()`, hh:679). -/
def SummaryStats.init : SummaryStats :=
  { accelerator_name := "", timestamp := "", version := "3.0"
    performance := PerformanceStats.init
    functional_units := FunctionalUnitStats.init
    memory := MemoryStats.init
    registers := RegisterStats.init
    power := PowerStats.init
    area := AreaStats.init
    cycle_summary := CycleStatsSummary.init
    memory_access := MemoryAccessStats.init
    dataflow := DataflowStats.init
    fu_utilization := FUUtilizationStats.init
    stall_breakdown := StallBreakdown.init }

/-! ### Power/area coefficients (`temp_hw_statistics_enhanced.{hh,cc}`) -/

/-- `PowerAreaCoefficients::FUCoeffs` (temp_hw_statistics_enhanced.hh:465). -/
structure FUCoeffs where
  area_um2 : ℚ
  leakage_mw : ℚ
  dynamic_read_mw : ℚ
  dynamic_write_mw : ℚ

/-- `PowerAreaCoefficients` (temp_hw_statistics_enhanced.hh:463). -/
structure PowerAreaCoefficients where
  fu_coeffs : FUType → FUCoeffs
  reg_area_per_bit_um2 : ℚ
  reg_leakage_per_bit_mw : ℚ
  reg_dynamic_read_mw : ℚ
  reg_dynamic_write_mw : ℚ
  spm_leakage_per_kb_mw : ℚ
  spm_read_dynamic_per_access_mw : ℚ
  spm_write_dynamic_per_access_mw : ℚ
  spm_area_per_kb_um2 : ℚ
  cache_leakage_per_kb_mw : ℚ
  cache_read_dynamic_per_access_mw : ℚ
  cache_write_dynamic_per_access_mw : ℚ
  cache_area_per_kb_um2 : ℚ
  technology_node : String
  voltage : ℚ
  temperature_c : ℚ

/-- The in-class member initializers of `PowerAreaCoefficients`
(temp_hw_statistics_enhanced.hh:466-494): all FU coefficients zero, the
register/memory coefficients and technology info at their listed defaults. -/
def PowerAreaCoefficients.inClassInit : PowerAreaCoefficients :=
  { fu_coeffs := fun _ =>
      { area_um2 := 0, leakage_mw := 0, dynamic_read_mw := 0, dynamic_write_mw := 0 }
    reg_area_per_bit_um2 := 5.981433
    reg_leakage_per_bit_mw := 7.395312e-5
    reg_dynamic_read_mw := 1.3226e-3
    reg_dynamic_write_mw := 1.792126e-4
    spm_leakage_per_kb_mw := 0.5
    spm_read_dynamic_per_access_mw := 0.1
    spm_write_dynamic_per_access_mw := 0.15
    spm_area_per_kb_um2 := 10000
    cache_leakage_per_kb_mw := 0.8
    cache_read_dynamic_per_access_mw := 0.2
    cache_write_dynamic_per_access_mw := 0.25
    cache_area_per_kb_um2 := 15000
    technology_node := "45nm"
    voltage := 1
    temperature_c := 25 }

/-- `PowerAreaCoefficients::setDefaults` (temp_hw_statistics_enhanced.cc:81):
install the built-in 45nm technology coefficients.  The coefficients of
`COUNTER`, `ZERO_CYCLE` and `OTHER` are not assigned by the function and keep
their previous values. -/
def PowerAreaCoefficients.setDefaults (c : PowerAreaCoefficients) : PowerAreaCoefficients :=
  { c with
    technology_node := "45nm"
    voltage := 1
    temperature_c := 25
    fu_coeffs := fun t =>
      match t with
      | FUType.INT_ADD_SUB =>
        { area_um2 := 179.443, leakage_mw := 2.380803e-3
          dynamic_read_mw := 8.1153e-3, dynamic_write_mw := 6.162853e-3 }
      | FUType.INT_MUL_DIV =>
        { area_um2 := 4595, leakage_mw := 4.817683e-2
          dynamic_read_mw := 5.725752e-1, dynamic_write_mw := 8.66289e-1 }
      | FUType.INT_BITWISE =>
        { area_um2 := 50.36996, leakage_mw := 6.111633e-4
          dynamic_read_mw := 1.680942e-3, dynamic_write_mw := 1.32242e-3 }
      | FUType.INT_SHIFT =>
        { area_um2 := 100, leakage_mw := 1.0e-3
          dynamic_read_mw := 2.0e-3, dynamic_write_mw := 1.5e-3 }
      | FUType.FP_FLOAT_ADD_SUB =>
        { area_um2 := 1500, leakage_mw := 1.5e-2
          dynamic_read_mw := 5.0e-2, dynamic_write_mw := 4.0e-2 }
      | FUType.FP_FLOAT_MUL_DIV =>
        { area_um2 := 3000, leakage_mw := 3.0e-2
          dynamic_read_mw := 1.0e-1, dynamic_write_mw := 8.0e-2 }
      | FUType.FP_DOUBLE_ADD_SUB =>
        { area_um2 := 3000, leakage_mw := 3.0e-2
          dynamic_read_mw := 1.0e-1, dynamic_write_mw := 8.0e-2 }
      | FUType.FP_DOUBLE_MUL_DIV =>
        { area_um2 := 6000, leakage_mw := 6.0e-2
          dynamic_read_mw := 2.0e-1, dynamic_write_mw := 1.5e-1 }
      | FUType.GEP =>
        { area_um2 := 200, leakage_mw := 2.0e-3
          dynamic_read_mw := 5.0e-3, dynamic_write_mw := 4.0e-3 }
      | FUType.CONVERSION =>
        { area_um2 := 150, leakage_mw := 1.5e-3
          dynamic_read_mw := 4.0e-3, dynamic_write_mw := 3.0e-3 }
      | t' => c.fu_coeffs t'
    reg_area_per_bit_um2 := 5.981433
    reg_leakage_per_bit_mw := 7.395312e-5
    reg_dynamic_read_mw := 1.3226e-3
    reg_dynamic_write_mw := 1.792126e-4
    spm_leakage_per_kb_mw := 0.5
    spm_read_dynamic_per_access_mw := 0.1
    spm_write_dynamic_per_access_mw := 0.15
    spm_area_per_kb_um2 := 10000
    cache_leakage_per_kb_mw := 0.8
    cache_read_dynamic_per_access_mw := 0.2
    cache_write_dynamic_per_access_mw := 0.25
    cache_area_per_kb_um2 := 15000 }

/-- `HWStatistics::calculatePowerWithActivity`
(temp_hw_statistics_enhanced.cc:632): recompute every power field of
`summary.power` from static counts, operation/access counts and the
coefficients; the energy fields use
`runtime_ns = total_cycles * clock_period_ns` and divide the mW·ns product by
`1e6` (the code's comment claims the result is nJ).  The two legacy
accumulators `acc_spm_total`/`acc_cache_total` are not assigned and keep
their previous values.  The object state is `summary` plus the
`power_area_config` argument `cfg`; the function only writes
`summary.power`. -/
def HWStatistics.calculatePowerWithActivity (summary : SummaryStats)
    (cfg : PowerAreaCoefficients) : SummaryStats :=
  let fu_leakage : ℚ := (fuTypeOrder.map fun t =>
    (summary.functional_units.static_count t : ℚ) * (cfg.fu_coeffs t).leakage_mw).sum
  let fu_dynamic : ℚ := (fuTypeOrder.map fun t =>
    ((summary.fu_utilization.by_type t).total_operations : ℚ) *
      ((cfg.fu_coeffs t).dynamic_read_mw + (cfg.fu_coeffs t).dynamic_write_mw)).sum
  let fu_total := fu_leakage + fu_dynamic
  let reg_leakage := (summary.registers.total : ℚ) * 32 * cfg.reg_leakage_per_bit_mw
  let reg_dynamic := (summary.registers.reads : ℚ) * cfg.reg_dynamic_read_mw +
    (summary.registers.writes : ℚ) * cfg.reg_dynamic_write_mw
  let reg_total := reg_leakage + reg_dynamic
  let spm_leakage := (summary.memory.spm_size_kb : ℚ) * cfg.spm_leakage_per_kb_mw
  let spm_read_dynamic :=
    (summary.memory_access.spm_reads : ℚ) * cfg.spm_read_dynamic_per_access_mw
  let spm_write_dynamic :=
    (summary.memory_access.spm_writes : ℚ) * cfg.spm_write_dynamic_per_access_mw
  let spm_total := spm_leakage + spm_read_dynamic + spm_write_dynamic
  let cache_reads := summary.memory_access.cache_read_hits +
    summary.memory_access.cache_read_misses
  let cache_writes := summary.memory_access.cache_write_hits +
    summary.memory_access.cache_write_misses
  let cache_leakage := (summary.memory.cache_size_kb : ℚ) * cfg.cache_leakage_per_kb_mw
  let cache_read_dynamic := (cache_reads : ℚ) * cfg.cache_read_dynamic_per_access_mw
  let cache_write_dynamic := (cache_writes : ℚ) * cfg.cache_write_dynamic_per_access_mw
  let cache_total := cache_leakage + cache_read_dynamic + cache_write_dynamic
  let total_power := fu_total + reg_total + spm_total + cache_total
  let runtime_ns : ℚ :=
    ((summary.performance.total_cycles * summary.performance.clock_period_ns : ℤ) : ℚ)
  { summary with power :=
    { summary.power with
      fu_leakage := fu_leakage
      fu_dynamic := fu_dynamic
      fu_total := fu_total
      reg_leakage := reg_leakage
      reg_dynamic := reg_dynamic
      reg_total := reg_total
      spm_leakage := spm_leakage
      spm_read_dynamic := spm_read_dynamic
      spm_write_dynamic := spm_write_dynamic
      spm_total := spm_total
      cache_leakage := cache_leakage
      cache_read_dynamic := cache_read_dynamic
      cache_write_dynamic := cache_write_dynamic
      cache_total := cache_total
      total_power := total_power
      total_energy_nj := total_power * runtime_ns / 1000000
      fu_energy_nj := fu_total * runtime_ns / 1000000
      mem_energy_nj := (spm_total + cache_total) * runtime_ns / 1000000
      reg_energy_nj := reg_total * runtime_ns / 1000000 } }

/-- `HWStatistics::collectPowerStats` (base variant, temp_hw_statistics.cc:203):
store the supplied per-block leakage/dynamic figures; each block total is
leakage + dynamic, `total_power` is `fu_total + reg_total` only, and the SPM
and cache blocks go into the separate accumulators
`acc_spm_total`/`acc_cache_total`. -/
def HWStatistics.collectPowerStats (summary : SummaryStats)
    (fu_leak fu_dyn reg_leak reg_dyn spm_leak spm_read spm_write
     cache_leak cache_read cache_write : ℚ) : SummaryStats :=
  { summary with power :=
    { summary.power with
      fu_leakage := fu_leak
      fu_dynamic := fu_dyn
      fu_total := fu_leak + fu_dyn
      reg_leakage := reg_leak
      reg_dynamic := reg_dyn
      reg_total := reg_leak + reg_dyn
      spm_leakage := spm_leak
      spm_read_dynamic := spm_read
      spm_write_dynamic := spm_write
      spm_total := spm_leak + spm_read + spm_write
      cache_leakage := cache_leak
      cache_read_dynamic := cache_read
      cache_write_dynamic := cache_write
      cache_total := cache_leak + cache_read + cache_write
      total_power := (fu_leak + fu_dyn) + (reg_leak + reg_dyn)
      acc_spm_total := ((fu_leak + fu_dyn) + (reg_leak + reg_dyn)) +
        (spm_leak + spm_read + spm_write)
      acc_cache_total := ((fu_leak + fu_dyn) + (reg_leak + reg_dyn)) +
        (cache_leak + cache_read + cache_write) } }

/-- C4 amended: `calculatePowerWithActivity` satisfies
`fu_total = fu_leakage + fu_dynamic` and
`total_power = fu_total + reg_total + spm_total + cache_total`, and running it
a second time with unchanged inputs changes nothing (idempotent);
`collectPowerStats` satisfies `fu_total = fu_leakage + fu_dynamic` but sets
`total_power = fu_total + reg_total` only — the SPM and cache blocks are kept
in the separate accumulators `acc_spm_total`/`acc_cache_total`. -/
theorem power_totals_consistent (s : SummaryStats) (cfg : PowerAreaCoefficients)
    (a b c d e f g h i j : ℚ) :
    (HWStatistics.calculatePowerWithActivity s cfg).power.fu_total =
      (HWStatistics.calculatePowerWithActivity s cfg).power.fu_leakage +
      (HWStatistics.calculatePowerWithActivity s cfg).power.fu_dynamic ∧
    (HWStatistics.calculatePowerWithActivity s cfg).power.total_power =
      (HWStatistics.calculatePowerWithActivity s cfg).power.fu_total +
      (HWStatistics.calculatePowerWithActivity s cfg).power.reg_total +
      (HWStatistics.calculatePowerWithActivity s cfg).power.spm_total +
      (HWStatistics.calculatePowerWithActivity s cfg).power.cache_total ∧
    HWStatistics.calculatePowerWithActivity
      (HWStatistics.calculatePowerWithActivity s cfg) cfg =
      HWStatistics.calculatePowerWithActivity s cfg ∧
    (HWStatistics.collectPowerStats s a b c d e f g h i j).power.fu_total =
      (HWStatistics.collectPowerStats s a b c d e f g h i j).power.fu_leakage +
      (HWStatistics.collectPowerStats s a b c d e f g h i j).power.fu_dynamic ∧
    (HWStatistics.collectPowerStats s a b c d e f g h i j).power.total_power =
      (HWStatistics.collectPowerStats s a b c d e f g h i j).power.fu_total +
      (HWStatistics.collectPowerStats s a b c d e f g h i j).power.reg_total :=
  ⟨rfl, by ring_nf; rfl, rfl, rfl, rfl⟩

/-- C4 counterexample: with non-zero SPM and cache figures,
`collectPowerStats` produces `total_power = fu_total + reg_total = 10`,
whereas the claimed four-block sum is `55`. -/
theorem collectPowerStats_total_excludes_memory :
    (HWStatistics.collectPowerStats SummaryStats.init
        1 2 3 4 5 6 7 8 9 10).power.total_power = 10 ∧
    (HWStatistics.collectPowerStats SummaryStats.init
        1 2 3 4 5 6 7 8 9 10).power.fu_total +
      (HWStatistics.collectPowerStats SummaryStats.init
        1 2 3 4 5 6 7 8 9 10).power.reg_total +
      (HWStatistics.collectPowerStats SummaryStats.init
        1 2 3 4 5 6 7 8 9 10).power.spm_total +
      (HWStatistics.collectPowerStats SummaryStats.init
        1 2 3 4 5 6 7 8 9 10).power.cache_total = 55 ∧
    (10 : ℚ) ≠ 55 := by
  refine ⟨by norm_num [HWStatistics.collectPowerStats], by
    norm_num [HWStatistics.collectPowerStats], by norm_num⟩

/-- C5: at `total_power = 0.5 mW` (one KB of SPM with the default
`0.5 mW/KB` leakage), `total_cycles = 1000`, `clock_period_ns = 1`, the code
stores `total_energy_nj = 0.5 · 1000 / 10^6 = 1/2000`, but
`0.5 mW · 1000 ns = 500 pJ = 0.5 nJ`: the correct nanojoule value —
`total_power · runtime_ns / 10^3` as the claim states — is `1/2`, a factor
of 1000 larger.  The division by `1e6` contradicts the code's own comment
that the result is in nJ. -/
theorem calculatePower_energy_mislabeled :
    (HWStatistics.calculatePowerWithActivity
      { SummaryStats.init with
          memory := { MemoryStats.init with spm_size_kb := 1 }
          performance := { PerformanceStats.init with
            total_cycles := 1000, clock_period_ns := 1 } }
      PowerAreaCoefficients.inClassInit).power.total_power = 1 / 2 ∧
    (HWStatistics.calculatePowerWithActivity
      { SummaryStats.init with
          memory := { MemoryStats.init with spm_size_kb := 1 }
          performance := { PerformanceStats.init with
            total_cycles := 1000, clock_period_ns := 1 } }
      PowerAreaCoefficients.inClassInit).power.total_energy_nj = 1 / 2000 ∧
    ((1 : ℚ) / 2) * 1000 / 1000 = 1 / 2 ∧
    ((1 : ℚ) / 2000) ≠ ((1 : ℚ) / 2) * 1000 / 1000 := by
  refine ⟨?_, ?_, by norm_num, by norm_num⟩
  · norm_num [HWStatistics.calculatePowerWithActivity, SummaryStats.init,
      MemoryStats.init, PerformanceStats.init, MemoryAccessStats.init,
      FunctionalUnitStats.init, FUUtilizationStats.init, RegisterStats.init,
      PowerAreaCoefficients.inClassInit, fuTypeOrder]
  · norm_num [HWStatistics.calculatePowerWithActivity, SummaryStats.init,
      MemoryStats.init, PerformanceStats.init, MemoryAccessStats.init,
      FunctionalUnitStats.init, FUUtilizationStats.init, RegisterStats.init,
      PowerAreaCoefficients.inClassInit, fuTypeOrder]

/-! ### Coefficient file loading (`temp_hw_statistics_enhanced.cc:165`)

`loadFromFile` is modelled over an abstract file: `none` when
`std::ifstream::is_open()` fails, `some lines` for the file's lines as
character lists.  `std::stod` either converts the longest valid numeric
prefix or throws `std::invalid_argument`; the throw is modelled as
`Except.error ()` propagating out of the parse loop. -/

/-- The value of a digit string, most significant first. -/
def digitsToNat (ds : List Char) : ℕ :=
  ds.foldl (fun a c => a * 10 + (c.toNat - '0'.toNat)) 0

/-- The exponent part accepted by `strtod` after an `e`/`E`: an optional sign
and digits; if no digits follow, the exponent is not consumed (0). -/
def parseExponent (r : List Char) : ℤ :=
  match r with
  | '-' :: ds =>
    if ds.takeWhile Char.isDigit = [] then 0
    else -(digitsToNat (ds.takeWhile Char.isDigit) : ℤ)
  | '+' :: ds =>
    if ds.takeWhile Char.isDigit = [] then 0
    else (digitsToNat (ds.takeWhile Char.isDigit) : ℤ)
  | ds =>
    if ds.takeWhile Char.isDigit = [] then 0
    else (digitsToNat (ds.takeWhile Char.isDigit) : ℤ)

/-- `std::stod` on the decimal subset: skip leading whitespace, an optional
sign, integer digits, an optional fraction, an optional exponent; trailing
characters are ignored.  `none` models the `std::invalid_argument` throw when
no conversion can be performed (no digit in the mantissa). -/
def stod (l : List Char) : Option ℚ :=
  let l1 := l.dropWhile Char.isWhitespace
  let signed : ℚ × List Char :=
    match l1 with
    | '-' :: r => (-1, r)
    | '+' :: r => (1, r)
    | _ => (1, l1)
  let intDigits := signed.2.takeWhile Char.isDigit
  let l3 := signed.2.dropWhile Char.isDigit
  let fractional : List Char × List Char :=
    match l3 with
    | '.' :: r => (r.takeWhile Char.isDigit, r.dropWhile Char.isDigit)
    | _ => ([], l3)
  if intDigits = [] ∧ fractional.1 = [] then none
  else
    let mant : ℚ := signed.1 * ((digitsToNat intDigits : ℚ) +
      (digitsToNat fractional.1 : ℚ) / (10 : ℚ) ^ fractional.1.length)
    let e : ℤ :=
      match fractional.2 with
      | 'e' :: r => parseExponent r
      | 'E' :: r => parseExponent r
      | _ => 0
    some (mant * (10 : ℚ) ^ e)

/-- One iteration of the `while (std::getline(...))` parse loop of
`PowerAreaCoefficients::loadFromFile` (temp_hw_statistics_enhanced.cc:174):
find the first `':'` (no colon: line ignored), strip `'"'` and `' '` from the
key and `'"'` and `','` from the value, then assign `technology_node`
directly or convert `voltage` / `temperature_c` with `std::stod` — which
throws (`Except.error ()`) on a non-numeric value.  All other keys are
ignored. -/
def PowerAreaCoefficients.applyLine (c : PowerAreaCoefficients) (line : List Char) :
    Except Unit PowerAreaCoefficients :=
  let colonPre := line.takeWhile (fun ch => ch ≠ ':')
  if colonPre.length = line.length then
    Except.ok c
  else
    let key := (colonPre.filter (fun ch => ch ≠ '"')).filter (fun ch => ch ≠ ' ')
    let v := ((line.drop (colonPre.length + 1)).filter
      (fun ch => ch ≠ '"')).filter (fun ch => ch ≠ ',')
    if key = "technology_node".toList then
      Except.ok { c with technology_node := String.mk v }
    else if key = "voltage".toList then
      match stod v with
      | some x => Except.ok { c with voltage := x }
      | none => Except.error ()
    else if key = "temperature_c".toList then
      match stod v with
      | some x => Except.ok { c with temperature_c := x }
      | none => Except.error ()
    else
      Except.ok c

/-- `PowerAreaCoefficients::loadFromFile` (temp_hw_statistics_enhanced.cc:165):
an unopenable file installs the built-in defaults and returns `false`;
otherwise every line is parsed in order and the function returns `true` —
unless a `voltage`/`temperature_c` line has a non-numeric value, in which
case `std::stod` throws out of the function (`Except.error ()`). -/
def PowerAreaCoefficients.loadFromFile (c : PowerAreaCoefficients)
    (file : Option (List (List Char))) : Except Unit (PowerAreaCoefficients × Bool) :=
  match file with
  | none => Except.ok (c.setDefaults, false)
  | some lines =>
    (lines.foldlM PowerAreaCoefficients.applyLine c).map (fun c' => (c', true))

/-- A parse loop over lines that all parse cleanly returns normally. -/
theorem foldlM_applyLine_ok (lines : List (List Char)) :
    ∀ c : PowerAreaCoefficients,
      (∀ line ∈ lines, ∀ c' : PowerAreaCoefficients,
        ∃ c'', PowerAreaCoefficients.applyLine c' line = Except.ok c'') →
      ∃ c'', lines.foldlM PowerAreaCoefficients.applyLine c = Except.ok c'' := by
  induction lines with
  | nil => intro c _; exact ⟨c, rfl⟩
  | cons line rest ih =>
    intro c hok
    obtain ⟨c1, hc1⟩ := hok line (List.mem_cons_self line rest) c
    have hrest := ih c1 (fun l hl => hok l (List.mem_cons_of_mem line hl))
    obtain ⟨c2, hc2⟩ := hrest
    refine ⟨c2, ?_⟩
    rw [List.foldlM_cons, hc1]
    simpa using hc2

/-- C9 amended: an unopenable coefficient file installs the built-in defaults
and returns `false` without raising; a file whose `voltage` and
`temperature_c` lines (if any) carry numeric values is processed to a normal
`true` return (unknown keys being ignored, so prior defaults persist); but a
`voltage`/`temperature_c` line whose value is not numeric makes `std::stod`
throw and the load aborts instead of falling back to defaults. -/
theorem loadFromFile_error_behaviour (c : PowerAreaCoefficients)
    (lines : List (List Char))
    (hok : ∀ line ∈ lines, ∀ c' : PowerAreaCoefficients,
      ∃ c'', PowerAreaCoefficients.applyLine c' line = Except.ok c'') :
    c.loadFromFile none = Except.ok (c.setDefaults, false) ∧
    ∃ c'', c.loadFromFile (some lines) = Except.ok (c'', true) := by
  refine ⟨rfl, ?_⟩
  obtain ⟨c'', hc⟩ := foldlM_applyLine_ok lines c hok
  refine ⟨c'', ?_⟩
  show (lines.foldlM PowerAreaCoefficients.applyLine c).map (fun c' => (c', true)) =
    Except.ok (c'', true)
  rw [hc]
  rfl

/-- C9 witness: a missing file, and a one-line file `"voltage": 1.5`. -/
theorem loadFromFile_error_behaviour_witness :
    (∀ line ∈ [("\"voltage\": 1.5").toList], ∀ c' : PowerAreaCoefficients,
      ∃ c'', PowerAreaCoefficients.applyLine c' line = Except.ok c'') ∧
    (PowerAreaCoefficients.inClassInit.loadFromFile none =
      Except.ok (PowerAreaCoefficients.inClassInit.setDefaults, false) ∧
    ∃ c'', PowerAreaCoefficients.inClassInit.loadFromFile
        (some [("\"voltage\": 1.5").toList]) = Except.ok (c'', true)) := by
  have hok : ∀ line ∈ [("\"voltage\": 1.5").toList], ∀ c' : PowerAreaCoefficients,
      ∃ c'', PowerAreaCoefficients.applyLine c' line = Except.ok c'' := by
    intro line hline c'
    have hl : line = ("\"voltage\": 1.5").toList := by
      simpa using hline
    subst hl
    exact ⟨_, rfl⟩
  exact ⟨hok, loadFromFile_error_behaviour _ _ hok⟩

/-- C9 counterexample: the malformed line `"voltage": abc` makes the load
raise (`std::stod` throws `std::invalid_argument`) instead of returning
normally with defaults. -/
theorem loadFromFile_throws_on_malformed_voltage :
    PowerAreaCoefficients.inClassInit.loadFromFile
      (some [("\"voltage\": abc").toList]) = Except.error () := rfl

/-! ### Cycle tracking (`temp_hw_statistics_enhanced.cc:711` and the base
variant `temp_hw_statistics.cc:250`)

The enhanced variant keeps `hw_buffer_list` as two pre-sized windows of
`stat_buffer_size` entries each, written through the `cycle_buffer` iterator
and rotated (with wrap-around) by `updateBuffer`; the base variant keeps
growing `std::vector`s, appending a fresh window instead of wrapping.  The
iterators are embedded as indices; a `rotations` counter counts the
`updateBuffer` calls.  `K` stands for the configured `stat_buffer_size`. -/

/-- The value of a C++ `int` converted to `uint64_t`. -/
def intToU64 (x : ℤ) : ℕ := (x % (2 ^ 64 : ℤ)).toNat

/-- `HW_Cycle_Stats` (temp_hw_statistics_enhanced.hh:705; the base variant at
temp_hw_statistics.hh:232 lacks the last four fields, which none of the
buffer operations read).  The `loadAcitve` typo is the source's. -/
structure HW_Cycle_Stats where
  cycle : ℤ
  resInFlight : ℤ
  loadInFlight : ℤ
  loadInternal : ℤ
  loadAcitve : ℤ
  loadRawStall : ℤ
  storeInFlight : ℤ
  storeActive : ℤ
  compInFlight : ℤ
  compLaunched : ℤ
  compActive : ℤ
  compFUStall : ℤ
  compCommited : ℤ
  stall_cause : StallCause
  bytes_read_this_cycle : ℤ
  bytes_written_this_cycle : ℤ
  fu_utilization_mask : ℤ
  deriving DecidableEq, Repr

/-- The zero `HW_Cycle_Stats` (`reset()`, hh:726), also the value-initialized
entries of a freshly resized window. -/
def HW_Cycle_Stats.init : HW_Cycle_Stats :=
  { cycle := 0, resInFlight := 0, loadInFlight := 0, loadInternal := 0
    loadAcitve := 0, loadRawStall := 0, storeInFlight := 0, storeActive := 0
    compInFlight := 0, compLaunched := 0, compActive := 0, compFUStall := 0
    compCommited := 0, stall_cause := StallCause.NONE, bytes_read_this_cycle := 0
    bytes_written_this_cycle := 0, fu_utilization_mask := 0 }

/-- The running accumulator of `summarizeCycleStats`
(temp_hw_statistics_enhanced.cc:726): the `uint64_t` totals, the `int`
counter, and the summary's peak/stall fields being built. -/
structure EnhScanAcc where
  total_res : ℕ
  total_load : ℕ
  total_store : ℕ
  total_comp : ℕ
  count : ℤ
  peak_res : ℤ
  peak_load : ℤ
  peak_store : ℤ
  peak_comp : ℤ
  raw_stalls : ℤ
  fu_stalls : ℤ

/-- The zero accumulator. -/
def EnhScanAcc.init : EnhScanAcc :=
  { total_res := 0, total_load := 0, total_store := 0, total_comp := 0, count := 0
    peak_res := 0, peak_load := 0, peak_store := 0, peak_comp := 0
    raw_stalls := 0, fu_stalls := 0 }

/-- One entry's contribution in `summarizeCycleStats`
(temp_hw_statistics_enhanced.cc:733-746). -/
def EnhScanAcc.bump (acc : EnhScanAcc) (st : HW_Cycle_Stats) : EnhScanAcc :=
  { total_res := u64 (acc.total_res + intToU64 st.resInFlight)
    total_load := u64 (acc.total_load + intToU64 st.loadInFlight)
    total_store := u64 (acc.total_store + intToU64 st.storeInFlight)
    total_comp := u64 (acc.total_comp + intToU64 st.compInFlight)
    count := acc.count + 1
    peak_res := max acc.peak_res st.resInFlight
    peak_load := max acc.peak_load st.loadInFlight
    peak_store := max acc.peak_store st.storeInFlight
    peak_comp := max acc.peak_comp st.compInFlight
    raw_stalls := acc.raw_stalls + st.loadRawStall
    fu_stalls := acc.fu_stalls + st.compFUStall }

/-- The inner loop of the enhanced `summarizeCycleStats`
(temp_hw_statistics_enhanced.cc:730): scan one window, breaking at the first
zero-cycle entry once anything has been counted
(`if (stats.cycle == 0 && count > 0) break`). -/
def enhScanWindow (acc : EnhScanAcc) : List HW_Cycle_Stats → EnhScanAcc
  | [] => acc
  | st :: rest =>
    if st.cycle = 0 ∧ acc.count > 0 then acc
    else enhScanWindow (acc.bump st) rest

/-- The cycle-tracking state of the enhanced `HWStatistics`
(temp_hw_statistics_enhanced.hh:744-749): the window list, the window index
(`hw_buffer` / `current_buffer_index`), the slot index within the current
window (`cycle_buffer`), and the number of `updateBuffer` calls so far. -/
structure EnhancedCycleTracking where
  hw_buffer_list : List (List HW_Cycle_Stats)
  bi : ℕ
  ci : ℕ
  rotations : ℕ
  deriving DecidableEq, Repr

/-- The constructor's buffer setup (temp_hw_statistics_enhanced.cc:258): two
windows of `K` zeroed entries, iterators at the first slot of the first
window. -/
def EnhancedCycleTracking.fresh (K : ℕ) : EnhancedCycleTracking :=
  { hw_buffer_list := [List.replicate K HW_Cycle_Stats.init,
      List.replicate K HW_Cycle_Stats.init]
    bi := 0, ci := 0, rotations := 0 }

/-- `HWStatistics::updateBuffer` (temp_hw_statistics_enhanced.cc:770): advance
to the next window, wrapping to the first, and reset the slot iterator. -/
def EnhancedCycleTracking.updateBuffer (s : EnhancedCycleTracking) : EnhancedCycleTracking :=
  { s with bi := (s.bi + 1) % s.hw_buffer_list.length, ci := 0
           rotations := s.rotations + 1 }

/-- `HWStatistics::recordCycleStats` (temp_hw_statistics_enhanced.cc:711):
write through the slot iterator, advance it, and rotate when it reaches the
window's end. -/
def EnhancedCycleTracking.recordCycleStats (tracking : Bool) (K : ℕ)
    (s : EnhancedCycleTracking) (stats : HW_Cycle_Stats) : EnhancedCycleTracking :=
  if !tracking then s
  else
    let bufs := s.hw_buffer_list.set s.bi
      ((s.hw_buffer_list.getD s.bi []).set s.ci stats)
    if s.ci + 1 = K then
      EnhancedCycleTracking.updateBuffer { s with hw_buffer_list := bufs, ci := s.ci + 1 }
    else
      { s with hw_buffer_list := bufs, ci := s.ci + 1 }

/-- `HWStatistics::summarizeCycleStats` (temp_hw_statistics_enhanced.cc:722):
scan every window in order with the early break, then derive the summary. -/
def EnhancedCycleTracking.summarizeCycleStats (tracking : Bool)
    (s : EnhancedCycleTracking) : CycleStatsSummary :=
  if !tracking then CycleStatsSummary.init
  else
    let acc := s.hw_buffer_list.foldl enhScanWindow EnhScanAcc.init
    { total_samples := acc.count
      avg_res_in_flight := if acc.count > 0 then (acc.total_res : ℚ) / (acc.count : ℚ) else 0
      avg_load_in_flight := if acc.count > 0 then (acc.total_load : ℚ) / (acc.count : ℚ) else 0
      avg_store_in_flight :=
        if acc.count > 0 then (acc.total_store : ℚ) / (acc.count : ℚ) else 0
      avg_comp_in_flight := if acc.count > 0 then (acc.total_comp : ℚ) / (acc.count : ℚ) else 0
      peak_res_in_flight := acc.peak_res
      peak_load_in_flight := acc.peak_load
      peak_store_in_flight := acc.peak_store
      peak_comp_in_flight := acc.peak_comp
      total_load_raw_stalls := acc.raw_stalls
      total_comp_fu_stalls := acc.fu_stalls }

/-- Recording a list of snapshots in order, starting from the fresh state. -/
def EnhancedCycleTracking.recordAll (K : ℕ) (ss : List HW_Cycle_Stats) :
    EnhancedCycleTracking :=
  ss.foldl (EnhancedCycleTracking.recordCycleStats true K) (EnhancedCycleTracking.fresh K)

/-- The running accumulator of the base variant's `summarizeCycleStats`
(temp_hw_statistics.cc:263): `int64_t` sums, and the summary fields. -/
structure BaseScanAcc where
  sum_res : ℤ
  sum_load : ℤ
  sum_store : ℤ
  sum_comp : ℤ
  count : ℤ
  peak_res : ℤ
  peak_load : ℤ
  peak_store : ℤ
  peak_comp : ℤ
  raw_stalls : ℤ
  fu_stalls : ℤ

/-- The zero accumulator. -/
def BaseScanAcc.init : BaseScanAcc :=
  { sum_res := 0, sum_load := 0, sum_store := 0, sum_comp := 0, count := 0
    peak_res := 0, peak_load := 0, peak_store := 0, peak_comp := 0
    raw_stalls := 0, fu_stalls := 0 }

/-- One entry's contribution in the base `summarizeCycleStats`
(temp_hw_statistics.cc:271-289): every entry of every buffer is counted, no
break. -/
def BaseScanAcc.bump (acc : BaseScanAcc) (st : HW_Cycle_Stats) : BaseScanAcc :=
  { sum_res := acc.sum_res + st.resInFlight
    sum_load := acc.sum_load + st.loadInFlight
    sum_store := acc.sum_store + st.storeInFlight
    sum_comp := acc.sum_comp + st.compInFlight
    count := acc.count + 1
    peak_res := max acc.peak_res st.resInFlight
    peak_load := max acc.peak_load st.loadInFlight
    peak_store := max acc.peak_store st.storeInFlight
    peak_comp := max acc.peak_comp st.compInFlight
    raw_stalls := acc.raw_stalls + st.loadRawStall
    fu_stalls := acc.fu_stalls + st.compFUStall }

/-- The cycle-tracking state of the base `HWStatistics`
(temp_hw_statistics.hh:263-267). -/
structure BaseCycleTracking where
  hw_buffer_list : List (List HW_Cycle_Stats)
  current_buffer_index : ℕ
  rotations : ℕ
  deriving DecidableEq, Repr

/-- The base constructor's buffer setup (temp_hw_statistics.cc:59): two empty
(capacity-reserved) windows. -/
def BaseCycleTracking.fresh : BaseCycleTracking :=
  { hw_buffer_list := [[], []], current_buffer_index := 0, rotations := 0 }

/-- The base `HWStatistics::updateBuffer` (temp_hw_statistics.cc:320): advance
the window index and append a fresh window when moving past the last one
(grow-without-wrap). -/
def BaseCycleTracking.updateBuffer (s : BaseCycleTracking) : BaseCycleTracking :=
  let idx := s.current_buffer_index + 1
  { hw_buffer_list :=
      if s.hw_buffer_list.length ≤ idx then s.hw_buffer_list ++ [[]] else s.hw_buffer_list
    current_buffer_index := idx
    rotations := s.rotations + 1 }

/-- The base `HWStatistics::recordCycleStats` (temp_hw_statistics.cc:250):
push into the current window and rotate once it holds `stat_buffer_size`
entries. -/
def BaseCycleTracking.recordCycleStats (tracking : Bool) (K : ℕ)
    (s : BaseCycleTracking) (stats : HW_Cycle_Stats) : BaseCycleTracking :=
  if !tracking then s
  else
    let bufs := s.hw_buffer_list.set s.current_buffer_index
      ((s.hw_buffer_list.getD s.current_buffer_index []) ++ [stats])
    if K ≤ (bufs.getD s.current_buffer_index []).length then
      BaseCycleTracking.updateBuffer { s with hw_buffer_list := bufs }
    else
      { s with hw_buffer_list := bufs }

/-- The base `HWStatistics::summarizeCycleStats` (temp_hw_statistics.cc:263):
count every entry of every window. -/
def BaseCycleTracking.summarizeCycleStats (tracking : Bool) (s : BaseCycleTracking) :
    CycleStatsSummary :=
  if !tracking then CycleStatsSummary.init
  else
    let acc := s.hw_buffer_list.foldl (fun a buf => buf.foldl BaseScanAcc.bump a)
      BaseScanAcc.init
    { total_samples := acc.count
      avg_res_in_flight := if acc.count > 0 then (acc.sum_res : ℚ) / (acc.count : ℚ) else 0
      avg_load_in_flight := if acc.count > 0 then (acc.sum_load : ℚ) / (acc.count : ℚ) else 0
      avg_store_in_flight :=
        if acc.count > 0 then (acc.sum_store : ℚ) / (acc.count : ℚ) else 0
      avg_comp_in_flight := if acc.count > 0 then (acc.sum_comp : ℚ) / (acc.count : ℚ) else 0
      peak_res_in_flight := acc.peak_res
      peak_load_in_flight := acc.peak_load
      peak_store_in_flight := acc.peak_store
      peak_comp_in_flight := acc.peak_comp
      total_load_raw_stalls := acc.raw_stalls
      total_comp_fu_stalls := acc.fu_stalls }

/-- Recording a list of snapshots in order, starting from the fresh state. -/
def BaseCycleTracking.recordAll (K : ℕ) (ss : List HW_Cycle_Stats) : BaseCycleTracking :=
  ss.foldl (BaseCycleTracking.recordCycleStats true K) BaseCycleTracking.fresh

/-- A window holding the written prefix `l` padded with zeroed entries. -/
def padWindow (K : ℕ) (l : List HW_Cycle_Stats) : List HW_Cycle_Stats :=
  l ++ List.replicate (K - l.length) HW_Cycle_Stats.init

/-- Writing just past a prefix of a padded list extends the prefix. -/
theorem set_append_replicate {α : Type} (d x : α) (l : List α) :
    ∀ j : ℕ, 0 < j →
      (l ++ List.replicate j d).set l.length x = (l ++ [x]) ++ List.replicate (j - 1) d := by
  induction l with
  | nil =>
    intro j hj
    cases j with
    | zero => omega
    | succ k => simp [List.replicate_succ]
  | cons a t ih =>
    intro j hj
    simp only [List.cons_append, List.length_cons, List.set, List.append_eq]
    rw [ih j hj]

/-- `padWindow` version of `set_append_replicate`. -/
theorem padWindow_set (K : ℕ) (l : List HW_Cycle_Stats) (x : HW_Cycle_Stats)
    (h : l.length < K) :
    (padWindow K l).set l.length x = padWindow K (l ++ [x]) := by
  unfold padWindow
  rw [set_append_replicate HW_Cycle_Stats.init x l (K - l.length) (by omega)]
  simp only [List.length_append, List.length_cons, List.length_nil]
  congr 2

/-- Division and remainder for a value in the second window. -/
theorem div_mod_between (K m : ℕ) (h1 : K ≤ m) (h2 : m < 2 * K) :
    m / K = 1 ∧ m % K = m - K := by
  have hK : 0 < K := by omega
  refine ⟨?_, ?_⟩
  · rw [Nat.div_eq_sub_div hK h1, Nat.div_eq_of_lt (by omega)]
  · rw [Nat.mod_eq_sub_mod h1, Nat.mod_eq_of_lt (by omega)]

/-- The enhanced tracking state reached after recording the snapshots `ss`
(at most `2K` of them) from fresh: the first window holds the first `K`
snapshots, the second the rest, each zero-padded; the iterators and the
rotation count follow the written count. -/
def enhAfter (K : ℕ) (ss : List HW_Cycle_Stats) : EnhancedCycleTracking :=
  { hw_buffer_list := [padWindow K (ss.take K), padWindow K (ss.drop K)]
    bi := (ss.length / K) % 2
    ci := ss.length % K
    rotations := ss.length / K }

/-- The fresh state is the zero-snapshot instance of `enhAfter`. -/
theorem enhAfter_nil (K : ℕ) : enhAfter K [] = EnhancedCycleTracking.fresh K := by
  unfold enhAfter EnhancedCycleTracking.fresh padWindow
  simp

/-- One `recordCycleStats` step advances the `enhAfter` characterization. -/
theorem record_enhAfter (K : ℕ) (hK : 0 < K) (ss : List HW_Cycle_Stats)
    (x : HW_Cycle_Stats) (hlen : ss.length < 2 * K) :
    EnhancedCycleTracking.recordCycleStats true K (enhAfter K ss) x =
      enhAfter K (ss ++ [x]) := by
  rcases Nat.lt_or_ge ss.length K with hm | hm
  · have hdiv : ss.length / K = 0 := Nat.div_eq_of_lt hm
    have hmod : ss.length % K = ss.length := Nat.mod_eq_of_lt hm
    have htake : ss.take K = ss := List.take_of_length_le (Nat.le_of_lt hm)
    have hdrop : ss.drop K = [] := List.drop_eq_nil_of_le (Nat.le_of_lt hm)
    rw [show enhAfter K ss =
        ⟨[padWindow K ss, padWindow K []], 0, ss.length, 0⟩ from by
      unfold enhAfter
      rw [htake, hdrop, hdiv, hmod]]
    unfold EnhancedCycleTracking.recordCycleStats EnhancedCycleTracking.updateBuffer
    simp only [Bool.not_true, Bool.false_eq_true, if_false, List.getD_cons_zero,
      List.set_cons_zero, List.length_cons, List.length_nil, List.length_set]
    rw [padWindow_set K ss x hm]
    by_cases hKeq : ss.length + 1 = K
    · rw [if_pos hKeq]
      unfold enhAfter
      have hlx : (ss ++ [x]).length = K := by
        simp [hKeq]
      rw [List.take_of_length_le (Nat.le_of_eq hlx), List.drop_eq_nil_of_le (Nat.le_of_eq hlx),
        hlx, Nat.div_self hK, Nat.mod_self]
    · rw [if_neg hKeq]
      unfold enhAfter
      have hlx : (ss ++ [x]).length = ss.length + 1 := by
        simp
      have hlt : ss.length + 1 < K := by
        omega
      rw [List.take_of_length_le (by omega), List.drop_eq_nil_of_le (by omega), hlx,
        Nat.div_eq_of_lt hlt, Nat.mod_eq_of_lt hlt]
  · obtain ⟨hdiv, hmod⟩ := div_mod_between K ss.length hm hlen
    have hdroplen : (ss.drop K).length = ss.length - K := List.length_drop K ss
    have htakex : (ss ++ [x]).take K = ss.take K := by
      rw [List.take_append_eq_append_take, Nat.sub_eq_zero_of_le hm, List.take_zero,
        List.append_nil]
    have hdropx : (ss ++ [x]).drop K = ss.drop K ++ [x] := by
      rw [List.drop_append_eq_append_drop, Nat.sub_eq_zero_of_le hm, List.drop_zero]
    rw [show enhAfter K ss =
        ⟨[padWindow K (ss.take K), padWindow K (ss.drop K)], 1, ss.length - K, 1⟩ from by
      unfold enhAfter
      rw [hdiv, hmod]]
    unfold EnhancedCycleTracking.recordCycleStats EnhancedCycleTracking.updateBuffer
    simp only [Bool.not_true, Bool.false_eq_true, if_false, List.getD_cons_succ,
      List.getD_cons_zero, List.set_cons_succ, List.set_cons_zero, List.length_cons,
      List.length_nil, List.length_set]
    rw [show (padWindow K (ss.drop K)).set (ss.length - K) x =
        padWindow K (ss.drop K ++ [x]) from by
      rw [← hdroplen]
      exact padWindow_set K (ss.drop K) x (by omega)]
    by_cases hKeq : ss.length - K + 1 = K
    · rw [if_pos hKeq]
      unfold enhAfter
      have hlx : (ss ++ [x]).length = 2 * K := by
        simp
        omega
      have hdiv2 : 2 * K / K = 2 := Nat.mul_div_cancel 2 hK
      have hmod2 : 2 * K % K = 0 := Nat.mul_mod_left 2 K
      rw [htakex, hdropx, hlx, hdiv2, hmod2]
    · rw [if_neg hKeq]
      unfold enhAfter
      have hlx : (ss ++ [x]).length = ss.length + 1 := by
        simp
      obtain ⟨hdiv', hmod'⟩ := div_mod_between K (ss.length + 1) (by omega) (by omega)
      rw [htakex, hdropx, hlx, hdiv', hmod']
      simp only [EnhancedCycleTracking.mk.injEq, true_and, and_true]
      omega

/-- Recording at most `2K` snapshots from fresh lands on `enhAfter`. -/
theorem recordAll_enhAfter (K : ℕ) (hK : 0 < K) (ss : List HW_Cycle_Stats)
    (h : ss.length ≤ 2 * K) :
    EnhancedCycleTracking.recordAll K ss = enhAfter K ss := by
  induction ss using List.reverseRecOn with
  | nil =>
    rw [enhAfter_nil]
    rfl
  | append_singleton ss x ih =>
    have hss : ss.length + 1 ≤ 2 * K := by
      simpa using h
    unfold EnhancedCycleTracking.recordAll
    rw [List.foldl_append, List.foldl_cons, List.foldl_nil]
    have ih' := ih (by omega)
    unfold EnhancedCycleTracking.recordAll at ih'
    rw [ih']
    exact record_enhAfter K hK ss x (by omega)

/-- Scanning a window of non-zero-cycle entries counts every entry. -/
theorem enhScanWindow_count_all (buf : List HW_Cycle_Stats) :
    ∀ acc : EnhScanAcc, (∀ st ∈ buf, st.cycle ≠ 0) →
      (enhScanWindow acc buf).count = acc.count + buf.length := by
  induction buf with
  | nil =>
    intro acc _
    simp [enhScanWindow]
  | cons st rest ih =>
    intro acc hnz
    unfold enhScanWindow
    rw [if_neg (by
      intro hcontra
      exact hnz st (List.mem_cons_self st rest) hcontra.1)]
    rw [ih _ (fun s hs => hnz s (List.mem_cons_of_mem st hs))]
    simp only [EnhScanAcc.bump, List.length_cons]
    push_cast
    omega

/-- Scanning a padded window whose written prefix has non-zero cycles: once
anything has been counted, the zero padding stops the scan, so exactly the
prefix is counted. -/
theorem enhScanWindow_count_pad (w : List HW_Cycle_Stats) (j : ℕ) :
    ∀ acc : EnhScanAcc, (∀ st ∈ w, st.cycle ≠ 0) →
      0 < acc.count + w.length →
      (enhScanWindow acc (w ++ List.replicate j HW_Cycle_Stats.init)).count =
        acc.count + w.length := by
  induction w with
  | nil =>
    intro acc _ hpos
    simp only [List.length_nil, Nat.cast_zero, add_zero] at hpos ⊢
    cases j with
    | zero => simp [enhScanWindow]
    | succ k =>
      rw [List.nil_append, List.replicate_succ]
      unfold enhScanWindow
      rw [if_pos ⟨rfl, hpos⟩]
  | cons st rest ih =>
    intro acc hnz hpos
    rw [List.cons_append]
    unfold enhScanWindow
    rw [if_neg (by
      intro hcontra
      exact hnz st (List.mem_cons_self st rest) hcontra.1)]
    rw [ih _ (fun s hs => hnz s (List.mem_cons_of_mem st hs)) (by
      simp only [EnhScanAcc.bump]
      push_cast [List.length_cons] at hpos ⊢
      omega)]
    simp only [EnhScanAcc.bump, List.length_cons]
    push_cast
    omega

/-- The enhanced summary's sample counter is the final scan count. -/
theorem enhSummarize_total_samples (s : EnhancedCycleTracking) :
    (EnhancedCycleTracking.summarizeCycleStats true s).total_samples =
      (s.hw_buffer_list.foldl enhScanWindow EnhScanAcc.init).count := rfl

/-- `enhScanWindow` over a padded window. -/
theorem enhScan_pad_count (K : ℕ) (w : List HW_Cycle_Stats) (acc : EnhScanAcc)
    (hnz : ∀ st ∈ w, st.cycle ≠ 0) (hpos : 0 < acc.count + w.length) :
    (enhScanWindow acc (padWindow K w)).count = acc.count + w.length := by
  unfold padWindow
  exact enhScanWindow_count_pad w (K - w.length) acc hnz hpos

/-- The enhanced `summarizeCycleStats` counts exactly the recorded snapshots,
provided at least one and at most `2K` snapshots were recorded and none
carries cycle id 0. -/
theorem enhanced_total_samples (K : ℕ) (hK : 0 < K) (ss : List HW_Cycle_Stats)
    (h1 : 1 ≤ ss.length) (h2 : ss.length ≤ 2 * K)
    (hnz : ∀ st ∈ ss, st.cycle ≠ 0) :
    (EnhancedCycleTracking.summarizeCycleStats true
      (EnhancedCycleTracking.recordAll K ss)).total_samples = (ss.length : ℤ) := by
  rw [recordAll_enhAfter K hK ss h2, enhSummarize_total_samples]
  show (enhScanWindow (enhScanWindow EnhScanAcc.init (padWindow K (ss.take K)))
      (padWindow K (ss.drop K))).count = (ss.length : ℤ)
  have hinit : EnhScanAcc.init.count = 0 := rfl
  rcases le_or_lt ss.length K with hm | hm
  · have htake : ss.take K = ss := List.take_of_length_le hm
    have hdrop : ss.drop K = [] := List.drop_eq_nil_of_le hm
    rw [htake, hdrop]
    have hc1 := enhScan_pad_count K ss EnhScanAcc.init hnz (by
      rw [hinit]
      omega)
    rw [enhScan_pad_count K [] (enhScanWindow EnhScanAcc.init (padWindow K ss)) (by
        intro st hst
        cases hst) (by
        rw [hc1, hinit]
        simp only [List.length_nil]
        omega)]
    rw [hc1, hinit]
    simp only [List.length_nil]
    omega
  · have htklen : (ss.take K).length = K := by
      rw [List.length_take]
      omega
    have hdplen : (ss.drop K).length = ss.length - K := List.length_drop K ss
    have hc1 := enhScan_pad_count K (ss.take K) EnhScanAcc.init
      (fun st hst => hnz st (List.take_subset K ss hst)) (by
        rw [hinit, htklen]
        omega)
    rw [enhScan_pad_count K (ss.drop K)
      (enhScanWindow EnhScanAcc.init (padWindow K (ss.take K)))
      (fun st hst => hnz st (List.drop_subset K ss hst)) (by
        rw [hc1, hinit, hdplen]
        omega)]
    rw [hc1, hinit, hdplen]
    omega

/-- `getD` at a freshly `set` index. -/
theorem getD_set_self {α : Type} (d b : α) :
    ∀ (l : List α) (i : ℕ), i < l.length → (l.set i b).getD i d = b := by
  intro l
  induction l with
  | nil => intro i h; simp at h
  | cons a t ih =>
    intro i h
    cases i with
    | zero => rfl
    | succ k => exact ih k (by simpa using h)

/-- `getD` away from a `set` index. -/
theorem getD_set_ne {α : Type} (d b : α) :
    ∀ (l : List α) (i j : ℕ), i ≠ j → (l.set i b).getD j d = l.getD j d := by
  intro l
  induction l with
  | nil => intro i j _; rfl
  | cons a t ih =>
    intro i j hij
    cases i with
    | zero =>
      cases j with
      | zero => exact absurd rfl hij
      | succ n => rfl
    | succ k =>
      cases j with
      | zero => rfl
      | succ n => exact ih k n (by omega)

/-- `getD` past the end. -/
theorem getD_of_length_le {α : Type} (d : α) :
    ∀ (l : List α) (i : ℕ), l.length ≤ i → l.getD i d = d := by
  intro l
  induction l with
  | nil => intro i _; rfl
  | cons a t ih =>
    intro i h
    cases i with
    | zero => simp at h
    | succ k => exact ih k (by simpa using h)

/-- `getD` of a one-element extension, at the old length. -/
theorem getD_append_length {α : Type} (d b : α) (l : List α) :
    (l ++ [b]).getD l.length d = b := by
  induction l with
  | nil => rfl
  | cons a t ih => simp only [List.cons_append, List.length_cons, List.getD_cons_succ, ih]

/-- Total number of entries across the windows. -/
def sumLens (l : List (List HW_Cycle_Stats)) : ℕ := (l.map List.length).sum

/-- `sumLens` after replacing one window. -/
theorem sumLens_set (b : List HW_Cycle_Stats) :
    ∀ (l : List (List HW_Cycle_Stats)) (i : ℕ), i < l.length →
      sumLens (l.set i b) + (l.getD i []).length = sumLens l + b.length := by
  intro l
  induction l with
  | nil => intro i h; simp at h
  | cons a t ih =>
    intro i h
    cases i with
    | zero =>
      simp [sumLens]
      omega
    | succ k =>
      have := ih k (by simpa using h)
      simp only [List.set_cons_succ, List.getD_cons_succ, sumLens, List.map_cons,
        List.sum_cons] at this ⊢
      omega

/-- The invariant tying the base tracking state to the recorded snapshots:
index, rotation count and window-list length follow `⌊M/K⌋`; the current
window holds the still-unfinished tail; windows past the current one are
empty; the windows hold `M` entries in total. -/
def BaseInv (K : ℕ) (ss : List HW_Cycle_Stats) (s : BaseCycleTracking) : Prop :=
  s.current_buffer_index = ss.length / K ∧
  s.rotations = ss.length / K ∧
  s.hw_buffer_list.length = max 2 (ss.length / K + 1) ∧
  s.hw_buffer_list.getD s.current_buffer_index [] = ss.drop (ss.length / K * K) ∧
  (∀ i, s.current_buffer_index < i → s.hw_buffer_list.getD i [] = []) ∧
  sumLens s.hw_buffer_list = ss.length

/-- The fresh base state satisfies the invariant for zero snapshots. -/
theorem baseInv_fresh (K : ℕ) : BaseInv K [] BaseCycleTracking.fresh := by
  unfold BaseInv BaseCycleTracking.fresh
  refine ⟨by simp, by simp, by simp, by simp, ?_, by simp [sumLens]⟩
  intro i hi
  match i with
  | 1 => rfl
  | (n + 2) =>
    exact getD_of_length_le [] _ _ (by simp)

/-- `sumLens` of a one-window extension. -/
theorem sumLens_append (l : List (List HW_Cycle_Stats)) (b : List HW_Cycle_Stats) :
    sumLens (l ++ [b]) = sumLens l + b.length := by
  simp [sumLens]

/-- One base `recordCycleStats` step preserves the invariant. -/
theorem baseInv_step (K : ℕ) (hK : 0 < K) (ss : List HW_Cycle_Stats) (x : HW_Cycle_Stats)
    (s : BaseCycleTracking) (h : BaseInv K ss s) :
    BaseInv K (ss ++ [x]) (BaseCycleTracking.recordCycleStats true K s x) := by
  obtain ⟨hidx, hrot, hlen, hcur, hrest, hsum⟩ := h
  have hdm : ss.length / K * K + ss.length % K = ss.length := Nat.div_add_mod' ss.length K
  have hr : ss.length % K < K := Nat.mod_lt _ hK
  have hq_lt : ss.length / K < s.hw_buffer_list.length := by
    rw [hlen]
    omega
  have hcurlen : (s.hw_buffer_list.getD (ss.length / K) []).length = ss.length % K := by
    rw [← hidx, hcur, List.length_drop]
    omega
  have hlx : (ss ++ [x]).length = ss.length + 1 := by
    simp
  unfold BaseCycleTracking.recordCycleStats BaseCycleTracking.updateBuffer
  simp only [Bool.not_true, Bool.false_eq_true, if_false]
  rw [hidx]
  rw [getD_set_self [] _ s.hw_buffer_list (ss.length / K) hq_lt]
  have hsetlen : (s.hw_buffer_list.set (ss.length / K)
      ((s.hw_buffer_list.getD (ss.length / K) []) ++ [x])).length =
      s.hw_buffer_list.length := List.length_set s.hw_buffer_list _ _
  have hnewlen : ((s.hw_buffer_list.getD (ss.length / K) []) ++ [x]).length =
      ss.length % K + 1 := by
    rw [List.length_append, hcurlen]
    rfl
  have hsum' : sumLens (s.hw_buffer_list.set (ss.length / K)
      ((s.hw_buffer_list.getD (ss.length / K) []) ++ [x])) = ss.length + 1 := by
    have := sumLens_set ((s.hw_buffer_list.getD (ss.length / K) []) ++ [x])
      s.hw_buffer_list (ss.length / K) hq_lt
    rw [hcurlen, hnewlen, hsum] at this
    omega
  have hcur' : (s.hw_buffer_list.set (ss.length / K)
      ((s.hw_buffer_list.getD (ss.length / K) []) ++ [x])).getD (ss.length / K) [] =
      ss.drop (ss.length / K * K) ++ [x] := by
    rw [getD_set_self [] _ s.hw_buffer_list (ss.length / K) hq_lt, ← hidx, hcur, hidx]
  have hdropx : (ss ++ [x]).drop (ss.length / K * K) = ss.drop (ss.length / K * K) ++ [x] := by
    rw [List.drop_append_eq_append_drop, Nat.sub_eq_zero_of_le (by omega), List.drop_zero]
  rw [hnewlen]
  split
  · -- the window filled: K ≤ ss.length % K + 1, i.e. ss.length % K = K - 1
    next hfull =>
    have hm1 : ss.length + 1 = (ss.length / K + 1) * K := by
      have : (ss.length / K + 1) * K = ss.length / K * K + K := by ring
      omega
    have hdiv1 : (ss.length + 1) / K = ss.length / K + 1 := by
      rw [hm1, Nat.mul_div_cancel _ hK]
    have hmod1 : (ss.length + 1) % K = 0 := by
      rw [hm1, Nat.mul_mod_left]
    have hdrop1 : (ss ++ [x]).drop ((ss.length / K + 1) * K) = [] := by
      apply List.drop_eq_nil_of_le
      rw [hlx, hm1]
    rw [hsetlen, hlen]
    rcases Nat.eq_zero_or_pos (ss.length / K) with hq0 | hqpos
    · rw [if_neg (by omega)]
      refine ⟨?_, ?_, ?_, ?_, ?_, ?_⟩
      · rw [hlx, hdiv1]
      · rw [hrot, hlx, hdiv1]
      · rw [hsetlen, hlen, hlx, hdiv1]
        omega
      · rw [getD_set_ne [] _ s.hw_buffer_list (ss.length / K) (ss.length / K + 1) (by omega),
          hlx, hdiv1]
        rw [hrest (ss.length / K + 1) (by omega), hdrop1]
      · intro i hi
        have hi' : ss.length / K + 1 < i := hi
        rw [getD_set_ne [] _ s.hw_buffer_list (ss.length / K) i (by omega)]
        exact hrest i (by omega)
      · rw [hsum', hlx]
    · rw [if_pos (by omega)]
      refine ⟨?_, ?_, ?_, ?_, ?_, ?_⟩
      · rw [hlx, hdiv1]
      · rw [hrot, hlx, hdiv1]
      · rw [List.length_append, hsetlen, hlen, hlx, hdiv1]
        simp only [List.length_cons, List.length_nil]
        omega
      · rw [hlx, hdiv1, hdrop1]
        have hblen : (s.hw_buffer_list.set (ss.length / K)
            ((s.hw_buffer_list.getD (ss.length / K) []) ++ [x])).length =
            ss.length / K + 1 := by
          rw [hsetlen, hlen]
          omega
        rw [← hblen]
        exact getD_append_length [] [] _
      · intro i hi
        have hi' : ss.length / K + 1 < i := hi
        apply getD_of_length_le
        rw [List.length_append, hsetlen, hlen]
        simp only [List.length_cons, List.length_nil]
        omega
      · rw [sumLens_append, hsum', hlx]
        rfl
  · -- window not yet full
    next hnotfull =>
    have hlt : ss.length % K + 1 < K := by omega
    have hdiv1 : (ss.length + 1) / K = ss.length / K := by
      have h1 : ss.length + 1 = K * (ss.length / K) + (ss.length % K + 1) := by
        have : ss.length / K * K = K * (ss.length / K) := by ring
        omega
      rw [h1, Nat.mul_add_div hK, Nat.div_eq_of_lt hlt, Nat.add_zero]
    refine ⟨?_, ?_, ?_, ?_, ?_, ?_⟩
    · rw [hlx, hdiv1]
    · rw [hrot, hlx, hdiv1]
    · rw [hsetlen, hlen, hlx, hdiv1]
    · rw [hlx, hdiv1, hcur', hdropx]
    · intro i hi
      have hi' : ss.length / K < i := hi
      rw [getD_set_ne [] _ s.hw_buffer_list (ss.length / K) i (by omega)]
      exact hrest i (by omega)
    · rw [hsum', hlx]

/-- The invariant holds after recording any snapshot sequence from fresh. -/
theorem baseInv_recordAll (K : ℕ) (hK : 0 < K) (ss : List HW_Cycle_Stats) :
    BaseInv K ss (BaseCycleTracking.recordAll K ss) := by
  induction ss using List.reverseRecOn with
  | nil => exact baseInv_fresh K
  | append_singleton ss x ih =>
    unfold BaseCycleTracking.recordAll
    rw [List.foldl_append, List.foldl_cons, List.foldl_nil]
    exact baseInv_step K hK ss x _ ih

/-- One window's scan counts all its entries (base variant, no break). -/
theorem baseScan_count (buf : List HW_Cycle_Stats) :
    ∀ acc : BaseScanAcc, (buf.foldl BaseScanAcc.bump acc).count = acc.count + buf.length := by
  induction buf with
  | nil =>
    intro acc
    simp
  | cons st rest ih =>
    intro acc
    rw [List.foldl_cons, ih]
    simp only [BaseScanAcc.bump, List.length_cons]
    push_cast
    omega

/-- The base scan over all windows counts `sumLens`. -/
theorem baseScan_all_count (bufs : List (List HW_Cycle_Stats)) :
    ∀ acc : BaseScanAcc,
      (bufs.foldl (fun a buf => buf.foldl BaseScanAcc.bump a) acc).count =
        acc.count + sumLens bufs := by
  induction bufs with
  | nil =>
    intro acc
    simp [sumLens]
  | cons buf rest ih =>
    intro acc
    rw [List.foldl_cons, ih, baseScan_count]
    simp only [sumLens, List.map_cons, List.sum_cons]
    push_cast
    omega

/-- The base summary's sample counter is the total entry count. -/
theorem baseSummarize_total_samples (s : BaseCycleTracking) :
    (BaseCycleTracking.summarizeCycleStats true s).total_samples =
      (sumLens s.hw_buffer_list : ℤ) := by
  show (s.hw_buffer_list.foldl (fun a buf => buf.foldl BaseScanAcc.bump a)
    BaseScanAcc.init).count = (sumLens s.hw_buffer_list : ℤ)
  rw [baseScan_all_count]
  show (0 : ℤ) + (sumLens s.hw_buffer_list : ℤ) = (sumLens s.hw_buffer_list : ℤ)
  omega

/-- C3 amended: with two windows of capacity `K ≥ 2` each, recording `K + 1`
snapshots causes exactly one `updateBuffer` call in both statistics variants.
After `M` snapshots, `summarizeCycleStats().total_samples` equals `M` in the
base (growing) variant for every `M ≥ 0`; in the enhanced (wrapping) variant
it equals `M` whenever `1 ≤ M ≤ 2K` and every recorded snapshot has a
non-zero cycle id (an empty tracker reports 1, and beyond `2K` snapshots are
overwritten — see the counterexample). -/
theorem cycle_window_rotation_and_samples (K : ℕ) (ss ssE ssB : List HW_Cycle_Stats)
    (hK : 2 ≤ K) (hlen : ss.length = K + 1)
    (hE1 : 1 ≤ ssE.length) (hE2 : ssE.length ≤ 2 * K)
    (hnz : ∀ st ∈ ssE, st.cycle ≠ 0) :
    (EnhancedCycleTracking.recordAll K ss).rotations = 1 ∧
    (BaseCycleTracking.recordAll K ss).rotations = 1 ∧
    (EnhancedCycleTracking.summarizeCycleStats true
      (EnhancedCycleTracking.recordAll K ssE)).total_samples = (ssE.length : ℤ) ∧
    (BaseCycleTracking.summarizeCycleStats true
      (BaseCycleTracking.recordAll K ssB)).total_samples = (ssB.length : ℤ) := by
  have hK0 : 0 < K := by omega
  have hdivK1 : (K + 1) / K = 1 := by
    rw [Nat.div_eq_sub_div hK0 (by omega), Nat.div_eq_of_lt (by omega)]
  refine ⟨?_, ?_, ?_, ?_⟩
  · rw [recordAll_enhAfter K hK0 ss (by omega)]
    show ss.length / K = 1
    rw [hlen, hdivK1]
  · obtain ⟨-, hrot, -, -, -, -⟩ := baseInv_recordAll K hK0 ss
    rw [hrot, hlen, hdivK1]
  · exact enhanced_total_samples K hK0 ssE hE1 hE2 hnz
  · obtain ⟨-, -, -, -, -, hsum⟩ := baseInv_recordAll K hK0 ssB
    rw [baseSummarize_total_samples, hsum]

/-- C3 counterexample: (a) before any snapshot is recorded the enhanced
`summarizeCycleStats` reports `total_samples = 1`, not 0 — the
`count > 0` guard lets the first zeroed entry of the first window be counted;
(b) with `stat_buffer_size = 1`, recording `K + 1 = 2` snapshots triggers two
`updateBuffer` calls, not one, in both variants. -/
theorem cycle_window_counterexample :
    (EnhancedCycleTracking.summarizeCycleStats true
      (EnhancedCycleTracking.fresh 4)).total_samples = 1 ∧
    (1 : ℤ) ≠ 0 ∧
    (EnhancedCycleTracking.recordAll 1
      [{ HW_Cycle_Stats.init with cycle := 1 },
       { HW_Cycle_Stats.init with cycle := 2 }]).rotations = 2 ∧
    (BaseCycleTracking.recordAll 1
      [{ HW_Cycle_Stats.init with cycle := 1 },
       { HW_Cycle_Stats.init with cycle := 2 }]).rotations = 2 ∧
    (2 : ℕ) ≠ 1 := by
  refine ⟨by decide, by decide, by decide, by decide, by decide⟩

/-- C3 witness: `K = 2`, three snapshots with cycle ids 1, 2, 3. -/
theorem cycle_window_rotation_and_samples_witness :
    ((2 : ℕ) ≤ 2 ∧
      ([{ HW_Cycle_Stats.init with cycle := 1 },
        { HW_Cycle_Stats.init with cycle := 2 },
        { HW_Cycle_Stats.init with cycle := 3 }] : List HW_Cycle_Stats).length = 2 + 1 ∧
      (∀ st ∈ ([{ HW_Cycle_Stats.init with cycle := 1 },
        { HW_Cycle_Stats.init with cycle := 2 },
        { HW_Cycle_Stats.init with cycle := 3 }] : List HW_Cycle_Stats), st.cycle ≠ 0)) ∧
    ((EnhancedCycleTracking.recordAll 2
        [{ HW_Cycle_Stats.init with cycle := 1 },
         { HW_Cycle_Stats.init with cycle := 2 },
         { HW_Cycle_Stats.init with cycle := 3 }]).rotations = 1 ∧
      (BaseCycleTracking.recordAll 2
        [{ HW_Cycle_Stats.init with cycle := 1 },
         { HW_Cycle_Stats.init with cycle := 2 },
         { HW_Cycle_Stats.init with cycle := 3 }]).rotations = 1 ∧
      (EnhancedCycleTracking.summarizeCycleStats true
        (EnhancedCycleTracking.recordAll 2
          [{ HW_Cycle_Stats.init with cycle := 1 },
           { HW_Cycle_Stats.init with cycle := 2 },
           { HW_Cycle_Stats.init with cycle := 3 }])).total_samples =
        (([{ HW_Cycle_Stats.init with cycle := 1 },
           { HW_Cycle_Stats.init with cycle := 2 },
           { HW_Cycle_Stats.init with cycle := 3 }] : List HW_Cycle_Stats).length : ℤ) ∧
      (BaseCycleTracking.summarizeCycleStats true
        (BaseCycleTracking.recordAll 2
          [{ HW_Cycle_Stats.init with cycle := 1 }])).total_samples =
        (([{ HW_Cycle_Stats.init with cycle := 1 }] : List HW_Cycle_Stats).length : ℤ)) :=
  ⟨⟨by decide, by decide, by decide⟩,
    cycle_window_rotation_and_samples 2 _ _ _ (by decide) (by decide) (by decide)
      (by decide) (by decide)⟩
